import Mathlib

/-!
Menu editor (script.js): drag, resize, selection, font size, export

A shallow embedding of the `MenuEditor` class and of `downloadImage`.

Numbers.  A JavaScript number is modelled by `JSNum`: a rational or one of the three
IEEE specials (`Infinity`, `-Infinity`, `NaN`).  Every sum, difference, product and
quotient of finite numbers is rounded to 53 significant bits, to nearest, ties to
even, as a binary64 operation is (`roundDouble`).  Inputs (pointer coordinates,
rendered sizes, computed font sizes) range over the rationals, which contain every
finite double, so the exponent range of `roundDouble` is left unbounded: overflow
beyond 1.8e308 and underflow below 2.2e-308, which pixel quantities do not reach, are
not part of the operations.  `toDouble` is the complete binary64 rounding;
`roundDouble` agrees with it on the normal range (`toDouble_eq_roundDouble`), and the
statements about rounded values carry that range as a hypothesis.  The sign of zero is
not modelled; every divisor in the script is a non-negative DOM measurement, so a zero
divisor is `+0`.

Browser inputs.  Values the script reads back from the layout engine
(`offsetWidth`, `getBoundingClientRect()`, `getComputedStyle()`) are inputs of each
call (`Layout`), not functions of the modelled state.

Inline styles.  Assigning `v + 'px'` to a style property sets it when `v` is finite;
`'NaNpx'` and `'Infinitypx'` are not lengths, the CSSOM discards the assignment and the
property keeps its previous value (`assignPx`).

DOM integers.  `offsetWidth` and `offsetHeight` are WebIDL `long` values, here
non-negative and below `2 ^ 31` (`Long`).

Deferred work.  `requestAnimationFrame(() => this.positionToolbar())` only queues a
callback; the queued callback is not part of the call that queues it.  Of the toolbar
only `style.display` is kept: its text read-out (`updateToolbarFontSize`) and its
coordinates are not modelled, nor is `toggleBold`.

The container `#rosterToDownload` and the toolbar exist: the constructor would
otherwise have thrown in `makeInteractive`.
-/

namespace MenuCard

/-! ## Rounding to a double -/

/-- Nearest integer, ties to the even one. -/
def roundHalfEven (x : ℚ) : ℤ :=
  if x - ⌊x⌋ < 1 / 2 then ⌊x⌋
  else if 1 / 2 < x - ⌊x⌋ then ⌊x⌋ + 1
  else if ⌊x⌋ % 2 = 0 then ⌊x⌋ else ⌊x⌋ + 1

/-- The exponent `e` with `2 ^ e ≤ |q| < 2 ^ (e + 1)`, for `q ≠ 0`. -/
def binade (q : ℚ) : ℤ := Int.log 2 |q|

/-- Spacing of the doubles in the binade of `q`: 53 significant bits. -/
def quantum (q : ℚ) : ℚ := (2 : ℚ) ^ (binade q - 52)

/-- The double nearest to `q` (round to nearest, ties to even; unbounded exponent). -/
def roundDouble (q : ℚ) : ℚ := (roundHalfEven (q / quantum q) : ℚ) * quantum q

/-! ## JavaScript numbers -/

/-- A JavaScript number: a finite value or one of `Infinity`, `-Infinity`, `NaN`. -/
inductive JSNum where
  | fin (q : ℚ)
  | posInf
  | negInf
  | nan
  deriving DecidableEq

namespace JSNum

/-- JavaScript `a + b`. -/
def add : JSNum → JSNum → JSNum
  | fin a, fin b => fin (roundDouble (a + b))
  | nan, _ => nan
  | _, nan => nan
  | posInf, negInf => nan
  | negInf, posInf => nan
  | posInf, _ => posInf
  | _, posInf => posInf
  | negInf, _ => negInf
  | _, negInf => negInf

/-- JavaScript unary minus. -/
def neg : JSNum → JSNum
  | fin a => fin (-a)
  | posInf => negInf
  | negInf => posInf
  | nan => nan

/-- JavaScript `a - b`. -/
def sub (a b : JSNum) : JSNum := add a (neg b)

/-- Product of an infinity (positive when `pos`) with the finite value `q`. -/
def infTimes (pos : Bool) (q : ℚ) : JSNum :=
  if q = 0 then nan
  else if 0 < q then (if pos then posInf else negInf)
  else (if pos then negInf else posInf)

/-- JavaScript `a * b`. -/
def mul : JSNum → JSNum → JSNum
  | fin a, fin b => fin (roundDouble (a * b))
  | nan, _ => nan
  | _, nan => nan
  | posInf, fin b => infTimes true b
  | negInf, fin b => infTimes false b
  | fin a, posInf => infTimes true a
  | fin a, negInf => infTimes false a
  | posInf, posInf => posInf
  | negInf, negInf => posInf
  | posInf, negInf => negInf
  | negInf, posInf => negInf

/-- JavaScript `a / b`.  A zero divisor is `+0`: `x / 0` is `Infinity`, `-Infinity`
or `NaN` according to the sign of `x`. -/
def div : JSNum → JSNum → JSNum
  | fin a, fin b =>
      if b = 0 then
        (if a = 0 then nan else if 0 < a then posInf else negInf)
      else fin (roundDouble (a / b))
  | nan, _ => nan
  | _, nan => nan
  | fin _, posInf => fin 0
  | fin _, negInf => fin 0
  | posInf, fin b => if 0 ≤ b then posInf else negInf
  | negInf, fin b => if 0 ≤ b then negInf else posInf
  | posInf, posInf => nan
  | posInf, negInf => nan
  | negInf, posInf => nan
  | negInf, negInf => nan

/-- JavaScript `Math.max(a, b)`: `NaN` as soon as one argument is `NaN`. -/
def max : JSNum → JSNum → JSNum
  | nan, _ => nan
  | _, nan => nan
  | posInf, _ => posInf
  | _, posInf => posInf
  | negInf, b => b
  | a, negInf => a
  | fin a, fin b => fin (Max.max a b)

/-- JavaScript `Math.min(a, b)`: `NaN` as soon as one argument is `NaN`. -/
def min : JSNum → JSNum → JSNum
  | nan, _ => nan
  | _, nan => nan
  | negInf, _ => negInf
  | _, negInf => negInf
  | posInf, b => b
  | a, posInf => a
  | fin a, fin b => fin (Min.min a b)

/-- JavaScript `a <= b` (false as soon as one side is `NaN`). -/
def le : JSNum → JSNum → Prop
  | nan, _ => False
  | _, nan => False
  | negInf, _ => True
  | _, posInf => True
  | posInf, _ => False
  | _, negInf => False
  | fin a, fin b => a ≤ b

/-- The value is a finite number. -/
def isFinite : JSNum → Bool
  | fin _ => true
  | _ => false

instance : Add JSNum := ⟨add⟩
instance : Sub JSNum := ⟨sub⟩
instance : Mul JSNum := ⟨mul⟩
instance : Div JSNum := ⟨div⟩
instance : LE JSNum := ⟨le⟩
instance : Coe ℚ JSNum := ⟨fin⟩

end JSNum

open JSNum

/-- The complete binary64 rounding of a rational: 53 significant bits in the normal
range, gradual underflow below `2 ^ (-1022)`, an infinity from `2 ^ 1024` on. -/
def toDouble (q : ℚ) : JSNum :=
  let u : ℚ := (2 : ℚ) ^ (Max.max (binade q) (-1022) - 52)
  let r : ℚ := (roundHalfEven (q / u) : ℚ) * u
  if (2 : ℚ) ^ (1024 : ℤ) ≤ r then posInf
  else if r ≤ -(2 : ℚ) ^ (1024 : ℤ) then negInf
  else fin r

/-- The exact result of an operation is zero or lies in the normal range of binary64:
rounding it neither underflows nor overflows. -/
def InNormalRange (x : ℚ) : Prop :=
  x = 0 ∨ ((2 : ℚ) ^ (-1022 : ℤ) ≤ |x| ∧ |x| < (2 : ℚ) ^ (1023 : ℤ))

/-- None of the three operations of `(c - d) * (w / r)` leaves the normal range. -/
def ScaledInRange (c d w r : ℚ) : Prop :=
  InNormalRange (c - d) ∧ InNormalRange (w / r) ∧
    InNormalRange (roundDouble (c - d) * roundDouble (w / r))

/-- None of the four operations of `a + (c - d) * (w / r)` leaves the normal range. -/
def TargetInRange (a c d w r : ℚ) : Prop :=
  ScaledInRange c d w r ∧
    InNormalRange (a + roundDouble (roundDouble (c - d) * roundDouble (w / r)))

/-! ## Data model -/

/-- A text block (`.el` element) of the roster is named by its index. -/
abbrev BlockId := ℕ

/-- A WebIDL `long` that is a size: `offsetWidth`, `offsetHeight`. -/
abbrev Long := Fin 2147483648

/-- An inline length (`el.style.left`, `style.width`, `style.fontSize`, ...):
`none` is the empty string (never set), `some v` is the length `v` px. -/
abbrev StyleLen := Option JSNum

/-- Effect of `el.style.prop = v + 'px'` on a property holding `old`: a finite `v` is
stored; `'NaNpx'` and `'Infinitypx'` are discarded and `old` stays. -/
def assignPx (old : StyleLen) (v : JSNum) : StyleLen :=
  if v.isFinite then some v else old

/-- The part of a block the script reads or writes. -/
structure Block where
  /-- Whether `classList` contains `'selected'`. -/
  selected : Bool
  /-- Whether `classList` contains `'dragging'`. -/
  dragging : Bool
  left : StyleLen
  top : StyleLen
  width : StyleLen
  minHeight : StyleLen
  fontSize : StyleLen
  /-- Inline font size of each descendant matched by
  `.day-title, .food-desc, .section-title, .price-highlight`, in document order. -/
  roleFontSize : List StyleLen
  /-- The `contenteditable` attribute (`none`: absent). -/
  contenteditable : Option String
  /-- The `spellcheck` attribute (`none`: absent). -/
  spellcheck : Option String
  /-- Inline `display` of the block's `.drag-handle`. -/
  dragHandleDisplay : String
  /-- Inline `display` of the block's `.resize-handle`. -/
  resizeHandleDisplay : String

/-- The fields of the `MenuEditor` object.  Pointer coordinates are finite numbers;
`elStartLeft`/`elStartTop` hold `parseInt(..) || offsetLeft`, always an integer;
`elStartW`/`elStartH` hold an `offsetWidth`/`offsetHeight`. -/
structure Editor where
  selectedEl : Option BlockId
  isDragging : Bool
  isResizing : Bool
  dragStartX : ℚ
  dragStartY : ℚ
  elStartLeft : ℤ
  elStartTop : ℤ
  resizeStartX : ℚ
  resizeStartY : ℚ
  elStartW : ℕ
  elStartH : ℕ

/-- The part of the document the script writes. -/
structure Page where
  blocks : BlockId → Block
  /-- Inline `display` of `#floatingToolbar`. -/
  toolbarDisplay : String
  /-- The value of `document.body.style.cursor`. -/
  bodyCursor : String
  /-- The value of `roster.style.boxShadow`. -/
  boxShadow : String
  /-- The value of `roster.style.borderRadius`. -/
  borderRadius : String

/-- Editor object together with the document it drives. -/
structure State where
  ed : Editor
  page : Page

/-- A mouse event: only `clientX` and `clientY` are read. -/
structure MouseEvent where
  clientX : ℚ
  clientY : ℚ

/-- Geometry and computed style the browser reports at the time of a call. -/
structure Layout where
  /-- The value of `container.offsetWidth`. -/
  containerOffsetWidth : Long
  /-- The value of `container.offsetHeight`. -/
  containerOffsetHeight : Long
  /-- The value of `container.getBoundingClientRect().width`. -/
  rectWidth : ℚ
  /-- The value of `container.getBoundingClientRect().height`. -/
  rectHeight : ℚ
  offsetLeft : BlockId → ℤ
  offsetTop : BlockId → ℤ
  offsetWidth : BlockId → Long
  offsetHeight : BlockId → Long
  /-- The value of `parseFloat(getComputedStyle(el).fontSize)`. -/
  fontSize : BlockId → ℚ
  /-- The value of `parseFloat(getComputedStyle(child).fontSize)` for the `i`-th role
  descendant of a block. -/
  roleFontSize : BlockId → ℕ → ℚ

/-- The three interaction modes of the specification. -/
inductive Mode where
  | idle
  | dragging
  | resizing
  deriving DecidableEq

/-- The mode encoded by the two flags; `none` when both are set. -/
def Editor.mode (ed : Editor) : Option Mode :=
  match ed.isDragging, ed.isResizing with
  | false, false => some Mode.idle
  | true, false => some Mode.dragging
  | false, true => some Mode.resizing
  | true, true => none

/-! ## JavaScript helpers -/

/-- JavaScript `parseInt(s)` on an inline length: `NaN` (`none`) on the empty
string and on `'NaNpx'`, `'Infinitypx'`; otherwise the integer part of the number
(digits up to the decimal point), for numbers printed in plain decimal notation. -/
def parseInt : StyleLen → Option ℤ
  | some (JSNum.fin q) => some (Int.tdiv q.num q.den)
  | _ => none

/-- JavaScript `a || b` where `a` is the result of `parseInt`: `0` and `NaN` are
falsy. -/
def orElse : Option ℤ → ℤ → ℤ
  | some n, b => if n = 0 then b else n
  | none, b => b

/-- JavaScript `Math.round(x)` on a finite number: the nearest integer, ties
towards `+Infinity`. -/
def mathRound (x : ℚ) : ℤ := Rat.floor (x + 1 / 2)

/-- Replace block `el` by `f` of it. -/
def Page.modify (p : Page) (el : BlockId) (f : Block → Block) : Page :=
  { p with blocks := Function.update p.blocks el (f (p.blocks el)) }

/-! ## Construction -/

/-- Effect of `makeInteractive`: every block receives a fresh drag handle and a
fresh resize handle (no inline `display`). -/
def makeInteractive (p : Page) : Page :=
  { p with blocks := fun i =>
      { p.blocks i with dragHandleDisplay := "", resizeHandleDisplay := "" } }

/-- Effect of `new MenuEditor()` on a loaded page: fields as in the constructor,
`createToolbar` (toolbar hidden), `makeInteractive`. -/
def construct (p : Page) : State :=
  { ed :=
      { selectedEl := none, isDragging := false, isResizing := false,
        dragStartX := 0, dragStartY := 0, elStartLeft := 0, elStartTop := 0,
        resizeStartX := 0, resizeStartY := 0, elStartW := 0, elStartH := 0 },
    page := makeInteractive { p with toolbarDisplay := "none" } }

/-! ## Selection -/

/-- Effect of `selectEl(el)`. -/
def selectEl (el : BlockId) (s : State) : State :=
  let page1 :=
    match s.ed.selectedEl with
    | some old =>
        if old ≠ el then s.page.modify old (fun b => { b with selected := false })
        else s.page
    | none => s.page
  { ed := { s.ed with selectedEl := some el },
    page := page1.modify el (fun b => { b with selected := true }) }

/-- Effect of `deselect()`. -/
def deselect (s : State) : State :=
  match s.ed.selectedEl with
  | some old =>
      { ed := { s.ed with selectedEl := none },
        page := { s.page.modify old (fun b => { b with selected := false }) with
                  toolbarDisplay := "none" } }
  | none => { s with page := { s.page with toolbarDisplay := "none" } }

/-! ## Drag -/

/-- Effect of `startDrag(e, el)`. -/
def startDrag (lay : Layout) (e : MouseEvent) (el : BlockId) (s : State) : State :=
  { ed :=
      { s.ed with
        isDragging := true
        selectedEl := some el
        dragStartX := e.clientX
        dragStartY := e.clientY
        elStartLeft := orElse (parseInt (s.page.blocks el).left) (lay.offsetLeft el)
        elStartTop := orElse (parseInt (s.page.blocks el).top) (lay.offsetTop el) },
    page :=
      { s.page.modify el (fun b => { b with selected := true, dragging := true }) with
        toolbarDisplay := "none"
        bodyCursor := "grabbing" } }

/-- Horizontal scale `container.offsetWidth / containerRect.width`. -/
def scaleX (lay : Layout) : JSNum :=
  fin (lay.containerOffsetWidth : ℕ) / fin lay.rectWidth

/-- Vertical scale `container.offsetHeight / containerRect.height`. -/
def scaleY (lay : Layout) : JSNum :=
  fin (lay.containerOffsetHeight : ℕ) / fin lay.rectHeight

/-- First value of `newLeft` in `doDrag`: `elStartLeft + dx * scaleX`, before the
clamp. -/
def dragTargetLeft (lay : Layout) (e : MouseEvent) (ed : Editor) : JSNum :=
  fin ed.elStartLeft + (fin e.clientX - fin ed.dragStartX) * scaleX lay

/-- First value of `newTop` in `doDrag`: `elStartTop + dy * scaleY`, before the
clamp. -/
def dragTargetTop (lay : Layout) (e : MouseEvent) (ed : Editor) : JSNum :=
  fin ed.elStartTop + (fin e.clientY - fin ed.dragStartY) * scaleY lay

/-- The clamp `Math.max(0, Math.min(v, outer - inner))` of `doDrag`. -/
def clampInside (v : JSNum) (outer inner : Long) : JSNum :=
  JSNum.max (fin 0) (JSNum.min v (fin (outer : ℕ) - fin (inner : ℕ)))

/-- Effect of `doDrag(e)`. -/
def doDrag (lay : Layout) (e : MouseEvent) (s : State) : State :=
  if s.ed.isDragging = false then s
  else
    match s.ed.selectedEl with
    | none => s
    | some el =>
        let newLeft :=
          clampInside (dragTargetLeft lay e s.ed) lay.containerOffsetWidth (lay.offsetWidth el)
        let newTop :=
          clampInside (dragTargetTop lay e s.ed) lay.containerOffsetHeight (lay.offsetHeight el)
        { s with page :=
            s.page.modify el (fun b =>
              { b with left := assignPx b.left newLeft, top := assignPx b.top newTop }) }

/-- Effect of `endDrag()`. -/
def endDrag (s : State) : State :=
  if s.ed.isDragging = false then s
  else
    let page1 :=
      match s.ed.selectedEl with
      | some el => s.page.modify el (fun b => { b with dragging := false })
      | none => s.page
    { ed := { s.ed with isDragging := false },
      page := { page1 with bodyCursor := "" } }

/-! ## Resize -/

/-- Effect of `startResize(e, el)`. -/
def startResize (lay : Layout) (e : MouseEvent) (el : BlockId) (s : State) : State :=
  { ed :=
      { s.ed with
        isResizing := true
        selectedEl := some el
        resizeStartX := e.clientX
        resizeStartY := e.clientY
        elStartW := lay.offsetWidth el
        elStartH := lay.offsetHeight el },
    page :=
      { s.page.modify el (fun b => { b with selected := true }) with
        bodyCursor := "se-resize"
        toolbarDisplay := "none" } }

/-- The local `dx` of `doResize`: `(e.clientX - resizeStartX) * scaleX`. -/
def resizeDx (lay : Layout) (e : MouseEvent) (ed : Editor) : JSNum :=
  (fin e.clientX - fin ed.resizeStartX) * scaleX lay

/-- The local `dy` of `doResize`: `(e.clientY - resizeStartY) * scaleY`. -/
def resizeDy (lay : Layout) (e : MouseEvent) (ed : Editor) : JSNum :=
  (fin e.clientY - fin ed.resizeStartY) * scaleY lay

/-- Effect of `doResize(e)`. -/
def doResize (lay : Layout) (e : MouseEvent) (s : State) : State :=
  if s.ed.isResizing = false then s
  else
    match s.ed.selectedEl with
    | none => s
    | some el =>
        let newW := JSNum.max (fin 80) (fin s.ed.elStartW + resizeDx lay e s.ed)
        let newH := JSNum.max (fin 30) (fin s.ed.elStartH + resizeDy lay e s.ed)
        { s with page :=
            s.page.modify el (fun b =>
              { b with
                width := assignPx b.width newW
                minHeight := assignPx b.minHeight newH }) }

/-- Effect of `endResize()`. -/
def endResize (s : State) : State :=
  if s.ed.isResizing = false then s
  else
    { ed := { s.ed with isResizing := false },
      page := { s.page with bodyCursor := "" } }

/-! ## Font size -/

/-- Value of `getEffectiveFontSize()`. -/
def getEffectiveFontSize (lay : Layout) (ed : Editor) : ℤ :=
  match ed.selectedEl with
  | none => 16
  | some el => mathRound (lay.fontSize el)

/-- The `forEach` of `changeFontSize` over the role descendants, from index `i` on:
each receives `Math.max(8, childFs + delta)`, `childFs` being its own computed
size. -/
def bumpRoles (delta : ℤ) (computed : ℕ → ℚ) : ℕ → List StyleLen → List StyleLen
  | _, [] => []
  | i, old :: rest =>
      assignPx old (JSNum.max (fin 8) (fin (computed i) + fin delta)) ::
        bumpRoles delta computed (i + 1) rest

/-- Effect of `changeFontSize(delta)`. -/
def changeFontSize (lay : Layout) (delta : ℤ) (s : State) : State :=
  match s.ed.selectedEl with
  | none => s
  | some el =>
      let current := getEffectiveFontSize lay s.ed
      let next := JSNum.max (fin 8) (fin current + fin delta)
      { s with page :=
          s.page.modify el (fun b =>
            { b with
              fontSize := assignPx b.fontSize next
              roleFontSize := bumpRoles delta (lay.roleFontSize el) 0 b.roleFontSize }) }

/-- Successive `changeFontSize` calls, each with the layout the browser reports at
that call. -/
def changeFontSizes (s : State) (calls : List (Layout × ℤ)) : State :=
  calls.foldl (fun st c => changeFontSize c.1 c.2 st) s

/-- The font size is set and at least 8px. -/
def AtLeast8 : StyleLen → Prop
  | some v => fin 8 ≤ v
  | none => False

/-! ## Export -/

/-- How the promise returned by `html2canvas` settles. -/
inductive RenderResult where
  | fulfilled (dataUrl : String)
  | rejected (message : String)

/-- What the export shows to the outside. -/
inductive Effect where
  | download (filename href : String)
  | alert (message : String)
  | consoleError (message : String)
  deriving DecidableEq

/-- The locals `editables`, `origShadow`, `origRadius` captured by the callbacks. -/
structure Saved where
  /-- Membership in the array `editables`. -/
  editables : BlockId → Bool
  origShadow : String
  origRadius : String

/-- Steps 1 to 3 of `downloadImage`, up to the `setTimeout`. -/
def stripChrome (s : State) : State × Saved :=
  let s1 := deselect s
  let blocks1 : BlockId → Block := fun i =>
    { s1.page.blocks i with
      dragHandleDisplay := "none", resizeHandleDisplay := "none",
      selected := false, dragging := false }
  let editables : BlockId → Bool := fun i => (blocks1 i).contenteditable.isSome
  let blocks2 : BlockId → Block := fun i => { blocks1 i with contenteditable := none }
  ({ ed := s1.ed,
     page :=
       { s1.page with
         blocks := blocks2, toolbarDisplay := "none",
         boxShadow := "none", borderRadius := "0" } },
   { editables := editables,
     origShadow := s1.page.boxShadow, origRadius := s1.page.borderRadius })

/-- The restoring statements of the `.then` callback. -/
def onFulfilled (saved : Saved) (s : State) : State :=
  { s with page :=
      { s.page with
        boxShadow := saved.origShadow
        borderRadius := saved.origRadius
        blocks := fun i =>
          let b : Block :=
            { s.page.blocks i with dragHandleDisplay := "", resizeHandleDisplay := "" }
          if saved.editables i then
            { b with contenteditable := some "true", spellcheck := some "false" }
          else b } }

/-- The restoring statements of the `.catch` callback. -/
def onRejected (saved : Saved) (s : State) : State :=
  { s with page :=
      { s.page with
        boxShadow := saved.origShadow
        borderRadius := saved.origRadius
        blocks := fun i =>
          let b : Block :=
            { s.page.blocks i with dragHandleDisplay := "", resizeHandleDisplay := "" }
          if saved.editables i then
            { b with contenteditable := some "true", spellcheck := some "false" }
          else b } }

/-- Effect of `downloadImage()` once the render has settled as `r`, no other handler
running in between: the state reached and what was shown to the outside. -/
def downloadImage (r : RenderResult) (s : State) : State × List Effect :=
  let stripped := stripChrome s
  match r with
  | RenderResult.fulfilled url =>
      (onFulfilled stripped.2 stripped.1, [Effect.download "BYTEZY_Menu_Roster.png" url])
  | RenderResult.rejected msg =>
      (onRejected stripped.2 stripped.1,
        [Effect.alert ("Download failed: " ++ msg), Effect.consoleError msg])

/-- The effect is a download. -/
def Effect.isDownload : Effect → Bool
  | Effect.download _ _ => true
  | _ => false

/-! ## Call sequences -/

/-- A call of one of the editor's methods. -/
inductive Call where
  | startDrag (lay : Layout) (e : MouseEvent) (el : BlockId)
  | doDrag (lay : Layout) (e : MouseEvent)
  | endDrag
  | startResize (lay : Layout) (e : MouseEvent) (el : BlockId)
  | doResize (lay : Layout) (e : MouseEvent)
  | endResize
  | selectEl (el : BlockId)
  | deselect

/-- Effect of one call. -/
def step (s : State) : Call → State
  | Call.startDrag lay e el => startDrag lay e el s
  | Call.doDrag lay e => doDrag lay e s
  | Call.endDrag => endDrag s
  | Call.startResize lay e el => startResize lay e el s
  | Call.doResize lay e => doResize lay e s
  | Call.endResize => endResize s
  | Call.selectEl el => selectEl el s
  | Call.deselect => deselect s

/-- Effect of a sequence of calls. -/
def run (s : State) (calls : List Call) : State := calls.foldl step s

/-- The call begins an interaction (`startDrag` or `startResize`). -/
def Call.isStart : Call → Bool
  | Call.startDrag _ _ _ => true
  | Call.startResize _ _ _ => true
  | _ => false

/-- Both flags are clear. -/
def Editor.isIdle (ed : Editor) : Bool := !ed.isDragging && !ed.isResizing

/-- Every `startDrag`/`startResize` of the sequence is issued while both flags are
clear (the routing precondition of the specification). -/
def startsFromIdle : State → List Call → Bool
  | _, [] => true
  | s, c :: rest => (!c.isStart || s.ed.isIdle) && startsFromIdle (step s c) rest

/-- The call is one of `selectEl`, `deselect`, `startDrag`, `startResize`. -/
def Call.isSelecting : Call → Bool
  | Call.selectEl _ => true
  | Call.deselect => true
  | Call.startDrag _ _ _ => true
  | Call.startResize _ _ _ => true
  | _ => false

/-- A block is marked `selected` exactly when it is `selectedEl`. -/
def MarkerMatchesSelection (s : State) : Prop :=
  ∀ b : BlockId, (s.page.blocks b).selected = true ↔ s.ed.selectedEl = some b

/-! ## Sample inputs -/

/-- A block as the host markup could provide it: nothing set inline. -/
def plainBlock : Block :=
  { selected := false, dragging := false, left := none, top := none, width := none,
    minHeight := none, fontSize := none, roleFontSize := [none, none],
    contenteditable := some "true", spellcheck := some "false",
    dragHandleDisplay := "", resizeHandleDisplay := "" }

/-- A page of plain blocks. -/
def plainPage : Page :=
  { blocks := fun _ => plainBlock, toolbarDisplay := "none", bodyCursor := "",
    boxShadow := "0 0 40px rgba(0,0,0,0.5)", borderRadius := "12px" }

/-- A 2000x1414 surface rendered at `rw` x `rh`, every block `bw` x `bh` at (100, 50),
computed font sizes 16px. -/
def sampleLayout (rw rh : ℚ) (bw bh : Long) : Layout :=
  { containerOffsetWidth := 2000, containerOffsetHeight := 1414,
    rectWidth := rw, rectHeight := rh,
    offsetLeft := fun _ => 100, offsetTop := fun _ => 50,
    offsetWidth := fun _ => bw, offsetHeight := fun _ => bh,
    fontSize := fun _ => 16, roleFontSize := fun _ _ => 12 }

/-- A pointer event at `(x, y)`. -/
def at_ (x y : ℚ) : MouseEvent := { clientX := x, clientY := y }

/-- A state in Dragging mode on block 0: `startDrag` at pointer (10, 10) on a fresh
editor, under the layout `lay`. -/
def draggingState (lay : Layout) : State :=
  startDrag lay (at_ 10 10) 0 (construct plainPage)

/-- A state in Resizing mode on block 0: `startResize` at pointer (10, 10) on a fresh
editor, under the layout `lay`. -/
def resizingState (lay : Layout) : State :=
  startResize lay (at_ 10 10) 0 (construct plainPage)

/-- The drag clamp as the specification words it: the block's position is set and
`0 <= left <= surfaceWidth - blockWidth`, `0 <= top <= surfaceHeight - blockHeight`. -/
def InsideSurface (lay : Layout) (el : BlockId) (b : Block) : Prop :=
  ∃ l t : JSNum, b.left = some l ∧ b.top = some t ∧
    fin 0 ≤ l ∧ l ≤ fin (lay.containerOffsetWidth : ℕ) - fin (lay.offsetWidth el : ℕ) ∧
    fin 0 ≤ t ∧ t ≤ fin (lay.containerOffsetHeight : ℕ) - fin (lay.offsetHeight el : ℕ)

/-- A surface rendered at 1600x707 (horizontal scale 1.25), blocks 200x100. -/
def zoomedLayout : Layout := sampleLayout 1600 707 200 100

/-- Block 0 after a complete drag under `zoomedLayout`: grabbed at (10, 10), moved
to (12, 10), released. -/
def afterScaledDrag : State :=
  run (construct plainPage)
    [Call.startDrag zoomedLayout (at_ 10 10) 0, Call.doDrag zoomedLayout (at_ 12 10),
      Call.endDrag]

/-- Block 0 selected by a click, then block 1 grabbed by its drag handle. -/
def afterSelectThenDrag : State :=
  run (construct plainPage)
    [Call.selectEl 0, Call.startDrag (sampleLayout 1000 707 200 100) (at_ 10 10) 1]

/-- A `startDrag` directly followed by a `startResize`, no release in between. -/
def dragThenResize : List Call :=
  [Call.startDrag (sampleLayout 1000 707 200 100) (at_ 10 10) 0,
    Call.startResize (sampleLayout 1000 707 200 100) (at_ 10 10) 0]

/-- A drag and a resize, each released before the next begins. -/
def dragReleaseResize : List Call :=
  [Call.startDrag (sampleLayout 1000 707 200 100) (at_ 10 10) 0,
    Call.doDrag (sampleLayout 1000 707 200 100) (at_ 30 10), Call.endDrag, Call.endResize,
    Call.startResize (sampleLayout 1000 707 200 100) (at_ 10 10) 0,
    Call.doResize (sampleLayout 1000 707 200 100) (at_ 30 10), Call.endDrag, Call.endResize]

/-- The layout of `sampleLayout` with computed font sizes `fs` (blocks) and `rs` (role
descendants). -/
def fontLayout (fs rs : ℚ) : Layout :=
  { sampleLayout 1000 707 200 100 with fontSize := fun _ => fs, roleFontSize := fun _ _ => rs }

/-- Two shrinking calls: by 2 from 16px/12px, then by 20 from 14px/10px. -/
def twoShrinks : List (Layout × ℤ) := [(fontLayout 16 12, -2), (fontLayout 14 10, -20)]

/-- A fresh editor in which block 0 was clicked. -/
def block0Selected : State := selectEl 0 (construct plainPage)

/-- The export restoration as the specification words it: every block's
`contenteditable` and `spellcheck`, the container's shadow and radius and every
handle's `display` are what they were before the export. -/
def ExportRestored (pre post : State) : Prop :=
  (∀ i, (post.page.blocks i).contenteditable = (pre.page.blocks i).contenteditable ∧
      (post.page.blocks i).spellcheck = (pre.page.blocks i).spellcheck) ∧
    post.page.boxShadow = pre.page.boxShadow ∧
    post.page.borderRadius = pre.page.borderRadius ∧
    ∀ i, (post.page.blocks i).dragHandleDisplay = (pre.page.blocks i).dragHandleDisplay ∧
      (post.page.blocks i).resizeHandleDisplay = (pre.page.blocks i).resizeHandleDisplay

/-- A page whose blocks are editable but carry no `spellcheck` attribute. -/
def noSpellcheckPage : Page :=
  { plainPage with blocks := fun _ => { plainBlock with spellcheck := none } }

/-- A page whose blocks are marked `contenteditable="false"`. -/
def lockedPage : Page :=
  { plainPage with blocks := fun _ => { plainBlock with contenteditable := some "false" } }

/-- An editor state whose drag handles carry the inline `display: block`. -/
def shownHandlesState : State :=
  { construct plainPage with
    page :=
      { (construct plainPage).page with
        blocks := fun _ => { plainBlock with dragHandleDisplay := "block" } } }

/-- A 2000x1414 surface rendered 485 wide, blocks 200x100. -/
def narrowView : Layout := sampleLayout 485 707 200 100

/-- What the browser reports once the container is hidden (`display: none`): every
size is zero. -/
def hiddenLayout : Layout :=
  { containerOffsetWidth := 0, containerOffsetHeight := 0, rectWidth := 0, rectHeight := 0,
    offsetLeft := fun _ => 0, offsetTop := fun _ => 0,
    offsetWidth := fun _ => 0, offsetHeight := fun _ => 0,
    fontSize := fun _ => 16, roleFontSize := fun _ _ => 12 }

/-- A page whose blocks carry the inline size 50px x 20px. -/
def smallBlocksPage : Page :=
  { plainPage with
    blocks := fun _ => { plainBlock with width := some (fin 50), minHeight := some (fin 20) } }

/-- Block 0 of `smallBlocksPage` (50x20) grabbed by its resize handle at (10, 10) while
the surface is rendered at half size. -/
def smallBlockResizing : State :=
  startResize (sampleLayout 1000 707 50 20) (at_ 10 10) 0 (construct smallBlocksPage)

/-! ## Rounding to a double: properties -/

theorem quantum_pos (q : ℚ) : 0 < quantum q := by
  unfold quantum
  positivity

theorem binade_bounds {q : ℚ} (hq : q ≠ 0) :
    (2 : ℚ) ^ binade q ≤ |q| ∧ |q| < (2 : ℚ) ^ (binade q + 1) := by
  have hpos : 0 < |q| := abs_pos.mpr hq
  constructor
  · have := Int.zpow_log_le_self (b := 2) (r := |q|) (by norm_num) hpos
    simpa [binade] using this
  · have := Int.lt_zpow_succ_log_self (b := 2) (by norm_num) |q|
    simpa [binade] using this

theorem binade_eq {q : ℚ} {e : ℤ} (hlo : (2 : ℚ) ^ e ≤ |q|) (hhi : |q| < (2 : ℚ) ^ (e + 1)) :
    binade q = e := by
  have hpos : 0 < |q| := lt_of_lt_of_le (by positivity) hlo
  have h1 : e ≤ Int.log 2 |q| := by
    rw [← Int.zpow_le_iff_le_log (by norm_num) hpos]
    simpa using hlo
  have h2 : Int.log 2 |q| < e + 1 := by
    rw [← Int.lt_zpow_iff_log_lt (by norm_num) hpos]
    simpa using hhi
  unfold binade
  omega

theorem roundHalfEven_intCast (n : ℤ) : roundHalfEven (n : ℚ) = n := by
  simp [roundHalfEven]

theorem floor_le_roundHalfEven (x : ℚ) : ⌊x⌋ ≤ roundHalfEven x := by
  unfold roundHalfEven
  split_ifs <;> omega

theorem roundHalfEven_le_ceil (x : ℚ) : roundHalfEven x ≤ ⌈x⌉ := by
  unfold roundHalfEven
  have hc : x - ⌊x⌋ ≠ 0 → ⌊x⌋ + 1 ≤ ⌈x⌉ := by
    intro h
    have hlt : (⌊x⌋ : ℚ) < x := by
      have := Int.floor_le x
      rcases lt_or_eq_of_le this with h' | h'
      · exact h'
      · exact absurd (by rw [h']; ring) h
    have : ⌊x⌋ < ⌈x⌉ := by
      have h2 := Int.le_ceil x
      exact_mod_cast lt_of_lt_of_le hlt h2
    omega
  have hfl : ⌊x⌋ ≤ ⌈x⌉ := Int.floor_le_ceil x
  split_ifs with h1 h2 h3
  · exact hfl
  · exact hc (by linarith)
  · exact hfl
  · apply hc
    have : x - ⌊x⌋ = 1 / 2 := le_antisymm (not_lt.mp h2) (not_lt.mp h1)
    rw [this]; norm_num

theorem roundHalfEven_eq_of_near {x : ℚ} {m : ℤ} (h : |x - m| < 1 / 2) : roundHalfEven x = m := by
  have h' := abs_lt.mp h
  unfold roundHalfEven
  by_cases hm : (m : ℚ) ≤ x
  · have hf : ⌊x⌋ = m := by
      rw [Int.floor_eq_iff]
      constructor
      · exact hm
      · linarith [h'.2]
    rw [hf]
    rw [if_pos h'.2]
  · have hm' : x < m := not_le.mp hm
    have hf : ⌊x⌋ = m - 1 := by
      rw [Int.floor_eq_iff]
      push_cast
      constructor
      · linarith [h'.1]
      · linarith
    rw [hf]
    push_cast
    have h1 : ¬ (x - ((m : ℚ) - 1) < 1 / 2) := by linarith [h'.1]
    have h2 : 1 / 2 < x - ((m : ℚ) - 1) := by linarith [h'.1]
    rw [if_neg h1, if_pos h2]
    ring

theorem roundDouble_zero : roundDouble 0 = 0 := by
  simp [roundDouble, roundHalfEven]

/-- A number with at most 53 significant bits is a double: rounding keeps it. -/
theorem roundDouble_mul_zpow (m k : ℤ) (hm : |m| < 2 ^ 53) :
    roundDouble ((m : ℚ) * (2 : ℚ) ^ k) = (m : ℚ) * (2 : ℚ) ^ k := by
  by_cases h0 : m = 0
  · subst h0
    simp [roundDouble_zero]
  · have h2 : (0 : ℚ) < (2 : ℚ) ^ k := by positivity
    have hq : (m : ℚ) * (2 : ℚ) ^ k ≠ 0 :=
      mul_ne_zero (by exact_mod_cast h0) (ne_of_gt h2)
    obtain ⟨hlo, -⟩ := binade_bounds hq
    set b := binade ((m : ℚ) * (2 : ℚ) ^ k) with hb
    have habs : |(m : ℚ) * (2 : ℚ) ^ k| < (2 : ℚ) ^ (53 + k) := by
      rw [abs_mul, abs_of_pos h2, zpow_add₀ (by norm_num : (2 : ℚ) ≠ 0)]
      have : |(m : ℚ)| < (2 : ℚ) ^ (53 : ℤ) := by
        have hc : ((|m| : ℤ) : ℚ) < ((2 ^ 53 : ℤ) : ℚ) := by exact_mod_cast hm
        rw [Int.cast_abs] at hc
        norm_num at hc ⊢
        exact hc
      exact mul_lt_mul_of_pos_right this h2
    have hlt : (2 : ℚ) ^ b < (2 : ℚ) ^ (53 + k) := lt_of_le_of_lt hlo habs
    have hbk : b < 53 + k := (zpow_lt_zpow_iff_right₀ (by norm_num : (1 : ℚ) < 2)).mp hlt
    obtain ⟨d, hd⟩ : ∃ d : ℕ, (d : ℤ) = k - (b - 52) := ⟨(k - (b - 52)).toNat, by omega⟩
    have hquot : (m : ℚ) * (2 : ℚ) ^ k / quantum ((m : ℚ) * (2 : ℚ) ^ k) =
        ((m * 2 ^ d : ℤ) : ℚ) := by
      unfold quantum
      rw [← hb, mul_div_assoc, ← zpow_sub₀ (by norm_num : (2 : ℚ) ≠ 0), ← hd]
      push_cast
      simp
    unfold roundDouble
    rw [hquot, roundHalfEven_intCast]
    unfold quantum
    rw [← hb]
    push_cast
    rw [mul_assoc, ← zpow_natCast, ← zpow_add₀ (by norm_num : (2 : ℚ) ≠ 0), hd]
    congr 2
    ring

/-- An integer below `2 ^ 53` in magnitude is a double. -/
theorem roundDouble_intCast (n : ℤ) (hn : |n| < 2 ^ 53) : roundDouble (n : ℚ) = n := by
  simpa using roundDouble_mul_zpow n 0 hn

/-- The double nearest to `q`, read off a candidate `m * 2 ^ e`. -/
theorem roundDouble_eq_of_near {q : ℚ} {e m : ℤ} (hlo : (2 : ℚ) ^ (e + 52) ≤ |q|)
    (hhi : |q| < (2 : ℚ) ^ (e + 53)) (hm : |q / (2 : ℚ) ^ e - m| < 1 / 2) :
    roundDouble q = (m : ℚ) * (2 : ℚ) ^ e := by
  have hb : binade q = e + 52 := binade_eq hlo (by simpa [add_assoc] using hhi)
  unfold roundDouble quantum
  rw [hb, show e + 52 - 52 = e by ring, roundHalfEven_eq_of_near hm]

theorem two_zpow_mul_quantum (q : ℚ) : (2 : ℚ) ^ (52 : ℤ) * quantum q = (2 : ℚ) ^ binade q := by
  unfold quantum
  rw [← zpow_add₀ (by norm_num : (2 : ℚ) ≠ 0)]
  congr 1
  ring

theorem roundDouble_pos {q : ℚ} (hq : 0 < q) : 0 < roundDouble q := by
  obtain ⟨hlo, -⟩ := binade_bounds (ne_of_gt hq)
  rw [abs_of_pos hq] at hlo
  have hu := quantum_pos q
  have h52 : ((2 ^ 52 : ℤ) : ℚ) ≤ q / quantum q := by
    rw [le_div_iff₀ hu]
    have h := two_zpow_mul_quantum q
    have e : ((2 ^ 52 : ℤ) : ℚ) = (2 : ℚ) ^ (52 : ℤ) := by norm_num
    rw [e, h]
    exact hlo
  have hfl : (2 ^ 52 : ℤ) ≤ ⌊q / quantum q⌋ := Int.le_floor.mpr h52
  have hr := floor_le_roundHalfEven (q / quantum q)
  have : (0 : ℤ) < roundHalfEven (q / quantum q) := by
    have : (0 : ℤ) < 2 ^ 52 := by norm_num
    omega
  unfold roundDouble
  exact mul_pos (by exact_mod_cast this) hu

theorem roundDouble_neg {q : ℚ} (hq : q < 0) : roundDouble q < 0 := by
  obtain ⟨hlo, -⟩ := binade_bounds (ne_of_lt hq)
  rw [abs_of_neg hq] at hlo
  have hu := quantum_pos q
  have h52 : q / quantum q ≤ ((-(2 ^ 52) : ℤ) : ℚ) := by
    rw [div_le_iff₀ hu]
    have h := two_zpow_mul_quantum q
    have e : ((-(2 ^ 52) : ℤ) : ℚ) = -(2 : ℚ) ^ (52 : ℤ) := by norm_num
    rw [e, neg_mul, h]
    linarith
  have hce : ⌈q / quantum q⌉ ≤ (-(2 ^ 52) : ℤ) := Int.ceil_le.mpr h52
  have hr := roundHalfEven_le_ceil (q / quantum q)
  have : roundHalfEven (q / quantum q) < (0 : ℤ) := by
    have : (0 : ℤ) < 2 ^ 52 := by norm_num
    omega
  unfold roundDouble
  exact mul_neg_of_neg_of_pos (by exact_mod_cast this) hu

theorem roundDouble_eq_zero_iff (q : ℚ) : roundDouble q = 0 ↔ q = 0 := by
  constructor
  · intro h
    by_contra hne
    rcases lt_or_gt_of_ne hne with h1 | h1
    · exact absurd h (ne_of_lt (roundDouble_neg h1))
    · exact absurd h (ne_of_gt (roundDouble_pos h1))
  · rintro rfl
    exact roundDouble_zero

theorem roundDouble_pos_iff (q : ℚ) : 0 < roundDouble q ↔ 0 < q := by
  constructor
  · intro h
    by_contra hne
    rcases lt_or_eq_of_le (not_lt.mp hne) with h1 | h1
    · exact absurd h (not_lt.mpr (le_of_lt (roundDouble_neg h1)))
    · rw [h1, roundDouble_zero] at h
      exact lt_irrefl _ h
  · exact roundDouble_pos

/-- The gap between two integers is at most a half away from the nearest one. -/
theorem abs_roundHalfEven_sub_le (x : ℚ) : |(roundHalfEven x : ℚ) - x| ≤ 1 / 2 := by
  have h1 := Int.floor_le x
  have h2 := Int.lt_floor_add_one x
  unfold roundHalfEven
  split_ifs with a b c
  · rw [abs_le]; constructor <;> linarith
  · push_cast; rw [abs_le]; constructor <;> linarith
  · rw [abs_le]; constructor <;> linarith [not_lt.mp a, not_lt.mp b]
  · push_cast; rw [abs_le]; constructor <;> linarith [not_lt.mp a, not_lt.mp b]

/-- Rounding to a double has relative error at most `2 ^ (-53)`. -/
theorem roundDouble_error (q : ℚ) : |roundDouble q - q| ≤ |q| / 2 ^ 53 := by
  by_cases hq : q = 0
  · subst hq
    simp [roundDouble_zero]
  · obtain ⟨hlo, -⟩ := binade_bounds hq
    have hu := quantum_pos q
    have heq : roundDouble q - q =
        ((roundHalfEven (q / quantum q) : ℚ) - q / quantum q) * quantum q := by
      unfold roundDouble
      field_simp
    rw [heq, abs_mul, abs_of_pos hu]
    have h1 := abs_roundHalfEven_sub_le (q / quantum q)
    have h2 : (1 / 2 : ℚ) * quantum q ≤ |q| / 2 ^ 53 := by
      have h := two_zpow_mul_quantum q
      have e : (2 : ℚ) ^ (52 : ℤ) = 2 ^ 52 := by norm_num
      rw [e] at h
      rw [le_div_iff₀ (by positivity)]
      calc 1 / 2 * quantum q * 2 ^ 53 = 2 ^ 52 * quantum q := by ring
        _ = (2 : ℚ) ^ binade q := h
        _ ≤ |q| := hlo
    calc |(roundHalfEven (q / quantum q) : ℚ) - q / quantum q| * quantum q
        ≤ 1 / 2 * quantum q := mul_le_mul_of_nonneg_right h1 (le_of_lt hu)
      _ ≤ |q| / 2 ^ 53 := h2

/-! ## Arithmetic of `JSNum` -/

@[simp]
theorem fin_add_fin (a b : ℚ) : (fin a + fin b : JSNum) = fin (roundDouble (a + b)) := rfl

@[simp]
theorem fin_sub_fin (a b : ℚ) : (fin a - fin b : JSNum) = fin (roundDouble (a - b)) := by
  show JSNum.add (fin a) (JSNum.neg (fin b)) = fin (roundDouble (a - b))
  simp [JSNum.add, JSNum.neg, sub_eq_add_neg]

@[simp]
theorem fin_mul_fin (a b : ℚ) : (fin a * fin b : JSNum) = fin (roundDouble (a * b)) := rfl

theorem fin_div_fin {b : ℚ} (a : ℚ) (hb : b ≠ 0) :
    (fin a / fin b : JSNum) = fin (roundDouble (a / b)) := by
  show JSNum.div (fin a) (fin b) = fin (roundDouble (a / b))
  simp [JSNum.div, hb]

@[simp]
theorem max_fin_fin (a b : ℚ) : JSNum.max (fin a) (fin b) = fin (Max.max a b) := rfl

@[simp]
theorem min_fin_fin (a b : ℚ) : JSNum.min (fin a) (fin b) = fin (Min.min a b) := rfl

@[simp]
theorem fin_le_fin (a b : ℚ) : (fin a ≤ fin b) ↔ a ≤ b := Iff.rfl

@[simp]
theorem not_le_nan (a : JSNum) : ¬ (a ≤ nan) := by
  cases a <;> exact fun h => h

@[simp]
theorem not_nan_le (a : JSNum) : ¬ (nan ≤ a) := by
  cases a <;> exact fun h => h

theorem fin_div_zero (a : ℚ) :
    (fin a / fin 0 : JSNum) = if a = 0 then nan else if 0 < a then posInf else negInf := by
  show JSNum.div (fin a) (fin 0) = _
  simp [JSNum.div]

@[simp]
theorem fin_mul_posInf (a : ℚ) : (fin a * posInf : JSNum) = infTimes true a := rfl

@[simp]
theorem fin_mul_negInf (a : ℚ) : (fin a * negInf : JSNum) = infTimes false a := rfl

@[simp]
theorem fin_mul_nan (a : ℚ) : (fin a * nan : JSNum) = nan := rfl

@[simp]
theorem fin_add_posInf (a : ℚ) : (fin a + posInf : JSNum) = posInf := rfl

@[simp]
theorem fin_add_negInf (a : ℚ) : (fin a + negInf : JSNum) = negInf := rfl

@[simp]
theorem fin_add_nan (a : ℚ) : (fin a + nan : JSNum) = nan := rfl

@[simp]
theorem max_fin_posInf (a : ℚ) : JSNum.max (fin a) posInf = posInf := rfl

@[simp]
theorem max_fin_negInf (a : ℚ) : JSNum.max (fin a) negInf = fin a := rfl

@[simp]
theorem max_fin_nan (a : ℚ) : JSNum.max (fin a) nan = nan := rfl

@[simp]
theorem min_posInf_fin (a : ℚ) : JSNum.min posInf (fin a) = fin a := rfl

@[simp]
theorem min_negInf_fin (a : ℚ) : JSNum.min negInf (fin a) = negInf := rfl

@[simp]
theorem min_nan_fin (a : ℚ) : JSNum.min nan (fin a) = nan := rfl

@[simp]
theorem assignPx_fin (old : StyleLen) (q : ℚ) : assignPx old (fin q) = some (fin q) := rfl

@[simp]
theorem assignPx_nan (old : StyleLen) : assignPx old nan = old := rfl

@[simp]
theorem assignPx_posInf (old : StyleLen) : assignPx old posInf = old := rfl

@[simp]
theorem assignPx_negInf (old : StyleLen) : assignPx old negInf = old := rfl

/-- The difference of two `long` sizes is computed exactly. -/
theorem long_sub_exact (a b : Long) :
    (fin (a : ℕ) - fin (b : ℕ) : JSNum) = fin ((a : ℕ) - (b : ℕ) : ℚ) := by
  rw [fin_sub_fin]
  have ha := a.isLt
  have hb := b.isLt
  have h := roundDouble_intCast ((a : ℕ) - (b : ℕ) : ℤ) (by rw [abs_lt]; constructor <;> omega)
  push_cast at h
  rw [h]

@[simp]
theorem modify_blocks_same (p : Page) (el : BlockId) (f : Block → Block) :
    (p.modify el f).blocks el = f (p.blocks el) := by
  simp [Page.modify]

theorem modify_blocks_other (p : Page) {el b : BlockId} (f : Block → Block) (h : b ≠ el) :
    (p.modify el f).blocks b = p.blocks b := by
  simp [Page.modify, Function.update_noteq h]

/-- The clamp of `doDrag` sends every number (finite or infinite) into
`[0, max 0 (outer - inner)]`. -/
theorem clampInside_bounds (v : JSNum) (outer inner : Long) (hv : v ≠ nan) :
    ∃ c : ℚ, clampInside v outer inner = fin c ∧ 0 ≤ c ∧
      c ≤ Max.max 0 (((outer : ℕ) : ℚ) - (inner : ℕ)) := by
  unfold clampInside
  rw [long_sub_exact]
  cases v with
  | fin q =>
      refine ⟨Max.max 0 (Min.min q (((outer : ℕ) : ℚ) - (inner : ℕ))), ?_, le_max_left _ _, ?_⟩
      · simp
      · exact max_le_max le_rfl (min_le_right _ _)
  | posInf =>
      refine ⟨Max.max 0 (((outer : ℕ) : ℚ) - (inner : ℕ)), ?_, le_max_left _ _, le_rfl⟩
      simp
  | negInf =>
      refine ⟨0, ?_, le_rfl, le_max_left _ _⟩
      simp [JSNum.max]
  | nan => exact absurd rfl hv

/-- With a non-zero rendered width the horizontal target of `doDrag` is finite. -/
theorem dragTargetLeft_finite (lay : Layout) (e : MouseEvent) (ed : Editor)
    (hw : lay.rectWidth ≠ 0) : ∃ q : ℚ, dragTargetLeft lay e ed = fin q := by
  simp [dragTargetLeft, scaleX, fin_div_fin _ hw]

/-- With a non-zero rendered height the vertical target of `doDrag` is finite. -/
theorem dragTargetTop_finite (lay : Layout) (e : MouseEvent) (ed : Editor)
    (hh : lay.rectHeight ≠ 0) : ∃ q : ℚ, dragTargetTop lay e ed = fin q := by
  simp [dragTargetTop, scaleY, fin_div_fin _ hh]

/-- On a block wider than the surface the clamp gives 0 for every finite target. -/
theorem clampInside_of_lt (q : ℚ) (outer inner : Long) (h : outer < inner) :
    clampInside (fin q) outer inner = fin 0 := by
  unfold clampInside
  rw [long_sub_exact]
  have h' : (((outer : ℕ) : ℚ) - (inner : ℕ)) < 0 := by
    have : ((outer : ℕ) : ℚ) < (inner : ℕ) := by exact_mod_cast h
    linarith
  simp only [min_fin_fin, max_fin_fin]
  congr 1
  exact max_eq_left (le_trans (min_le_right _ _) (le_of_lt h'))

/-- What `doDrag` assigns in Dragging mode: the clamped targets. -/
theorem doDrag_writes (lay : Layout) (e : MouseEvent) (s : State) (el : BlockId)
    (hd : s.ed.isDragging = true) (hs : s.ed.selectedEl = some el) :
    ((doDrag lay e s).page.blocks el).left =
        assignPx (s.page.blocks el).left
          (clampInside (dragTargetLeft lay e s.ed) lay.containerOffsetWidth
            (lay.offsetWidth el)) ∧
      ((doDrag lay e s).page.blocks el).top =
        assignPx (s.page.blocks el).top
          (clampInside (dragTargetTop lay e s.ed) lay.containerOffsetHeight
            (lay.offsetHeight el)) := by
  simp [doDrag, hd, hs]

/-- What `doResize` assigns in Resizing mode. -/
theorem doResize_writes (lay : Layout) (e : MouseEvent) (s : State) (el : BlockId)
    (hr : s.ed.isResizing = true) (hs : s.ed.selectedEl = some el) :
    ((doResize lay e s).page.blocks el).width =
        assignPx (s.page.blocks el).width
          (JSNum.max (fin 80) (fin s.ed.elStartW + resizeDx lay e s.ed)) ∧
      ((doResize lay e s).page.blocks el).minHeight =
        assignPx (s.page.blocks el).minHeight
          (JSNum.max (fin 30) (fin s.ed.elStartH + resizeDy lay e s.ed)) := by
  simp [doResize, hr, hs]

/-- Claim C1, amended: in Dragging mode, whenever the scaled targets are numbers
(not NaN), `doDrag` writes a finite position with `0 <= left <= max(0, surfaceWidth -
blockWidth)` and `0 <= top <= max(0, surfaceHeight - blockHeight)`; when the block is
no larger than the surface this is `left <= surfaceWidth - blockWidth` and
`top <= surfaceHeight - blockHeight`. -/
theorem doDrag_clamped (lay : Layout) (e : MouseEvent) (s : State) (el : BlockId)
    (hd : s.ed.isDragging = true) (hs : s.ed.selectedEl = some el)
    (hx : dragTargetLeft lay e s.ed ≠ nan) (hy : dragTargetTop lay e s.ed ≠ nan) :
    ∃ l t : ℚ,
      ((doDrag lay e s).page.blocks el).left = some (fin l) ∧
      ((doDrag lay e s).page.blocks el).top = some (fin t) ∧
      0 ≤ l ∧ l ≤ Max.max 0 (((lay.containerOffsetWidth : ℕ) : ℚ) - (lay.offsetWidth el : ℕ)) ∧
      0 ≤ t ∧
      t ≤ Max.max 0 (((lay.containerOffsetHeight : ℕ) : ℚ) - (lay.offsetHeight el : ℕ)) ∧
      (lay.offsetWidth el ≤ lay.containerOffsetWidth →
        l ≤ ((lay.containerOffsetWidth : ℕ) : ℚ) - (lay.offsetWidth el : ℕ)) ∧
      (lay.offsetHeight el ≤ lay.containerOffsetHeight →
        t ≤ ((lay.containerOffsetHeight : ℕ) : ℚ) - (lay.offsetHeight el : ℕ)) := by
  obtain ⟨l, hl, hl0, hl1⟩ :=
    clampInside_bounds (dragTargetLeft lay e s.ed) lay.containerOffsetWidth
      (lay.offsetWidth el) hx
  obtain ⟨t, ht, ht0, ht1⟩ :=
    clampInside_bounds (dragTargetTop lay e s.ed) lay.containerOffsetHeight
      (lay.offsetHeight el) hy
  have hw := doDrag_writes lay e s el hd hs
  refine ⟨l, t, ?_, ?_, hl0, hl1, ht0, ht1, ?_, ?_⟩
  · rw [hw.1, hl, assignPx_fin]
  · rw [hw.2, ht, assignPx_fin]
  · intro h
    have h' : (0 : ℚ) ≤ ((lay.containerOffsetWidth : ℕ) : ℚ) - (lay.offsetWidth el : ℕ) := by
      have : ((lay.offsetWidth el : ℕ) : ℚ) ≤ (lay.containerOffsetWidth : ℕ) := by
        exact_mod_cast h
      linarith
    rwa [max_eq_right h'] at hl1
  · intro h
    have h' : (0 : ℚ) ≤ ((lay.containerOffsetHeight : ℕ) : ℚ) - (lay.offsetHeight el : ℕ) := by
      have : ((lay.offsetHeight el : ℕ) : ℚ) ≤ (lay.containerOffsetHeight : ℕ) := by
        exact_mod_cast h
      linarith
    rwa [max_eq_right h'] at ht1

/-- Witness for C1 amended: a drag far beyond the right and top edges of a
2000x1414 surface rendered at half size. -/
theorem doDrag_clamped_witness :
    (draggingState (sampleLayout 1000 707 200 100)).ed.isDragging = true ∧
      ∃ l t : ℚ,
        ((doDrag (sampleLayout 1000 707 200 100) (at_ 5000 (-900))
            (draggingState (sampleLayout 1000 707 200 100))).page.blocks 0).left = some (fin l) ∧
        ((doDrag (sampleLayout 1000 707 200 100) (at_ 5000 (-900))
            (draggingState (sampleLayout 1000 707 200 100))).page.blocks 0).top = some (fin t) ∧
        0 ≤ l ∧ l ≤ 2000 - 200 ∧ 0 ≤ t ∧ t ≤ 1414 - 100 := by
  obtain ⟨l, t, h1, h2, h3, -, h5, -, h7, h8⟩ :=
    doDrag_clamped (sampleLayout 1000 707 200 100) (at_ 5000 (-900))
      (draggingState (sampleLayout 1000 707 200 100)) 0 rfl rfl
      (by
        obtain ⟨q, hq⟩ := dragTargetLeft_finite (sampleLayout 1000 707 200 100)
          (at_ 5000 (-900)) (draggingState (sampleLayout 1000 707 200 100)).ed (by decide)
        rw [hq]; exact fun h => JSNum.noConfusion h)
      (by
        obtain ⟨q, hq⟩ := dragTargetTop_finite (sampleLayout 1000 707 200 100)
          (at_ 5000 (-900)) (draggingState (sampleLayout 1000 707 200 100)).ed (by decide)
        rw [hq]; exact fun h => JSNum.noConfusion h)
  exact ⟨rfl, l, t, h1, h2, h3, by simpa [sampleLayout] using h7 (by decide), h5,
    by simpa [sampleLayout] using h8 (by decide)⟩

/-- Claim C1 fails as stated: a block 2500 wide on a 2000 wide surface: `doDrag`
writes `left = 0`, above `surfaceWidth - blockWidth = -500`. -/
theorem doDrag_clamp_counterexample :
    ((doDrag (sampleLayout 1000 707 2500 100) (at_ 10 10)
          (draggingState (sampleLayout 1000 707 2500 100))).page.blocks 0).left = some (fin 0) ∧
      ¬ InsideSurface (sampleLayout 1000 707 2500 100) 0
          ((doDrag (sampleLayout 1000 707 2500 100) (at_ 10 10)
            (draggingState (sampleLayout 1000 707 2500 100))).page.blocks 0) := by
  have hA := doDrag_writes (sampleLayout 1000 707 2500 100) (at_ 10 10)
    (draggingState (sampleLayout 1000 707 2500 100)) 0 rfl rfl
  obtain ⟨q, hq⟩ := dragTargetLeft_finite (sampleLayout 1000 707 2500 100) (at_ 10 10)
    (draggingState (sampleLayout 1000 707 2500 100)).ed (by decide)
  have lA : ((doDrag (sampleLayout 1000 707 2500 100) (at_ 10 10)
      (draggingState (sampleLayout 1000 707 2500 100))).page.blocks 0).left = some (fin 0) := by
    rw [hA.1, hq]
    have : clampInside (fin q) (sampleLayout 1000 707 2500 100).containerOffsetWidth
        ((sampleLayout 1000 707 2500 100).offsetWidth 0) = fin 0 :=
      clampInside_of_lt q _ _ (by decide)
    rw [this, assignPx_fin]
  refine ⟨lA, ?_⟩
  rintro ⟨l, t, hl, -, -, hle, -⟩
  rw [lA] at hl
  cases hl
  rw [long_sub_exact] at hle
  revert hle
  simp [sampleLayout]

/-- Claim C7: with `isDragging = false`, `doDrag` returns the state unchanged (every
block and every editor field); with `isResizing = false`, so does `doResize`. -/
theorem continue_outside_mode_is_noop (lay : Layout) (e : MouseEvent) (s : State) :
    (s.ed.isDragging = false → doDrag lay e s = s) ∧
      (s.ed.isResizing = false → doResize lay e s = s) := by
  constructor
  · intro h
    simp [doDrag, h]
  · intro h
    simp [doResize, h]

/-- Witness for C7: a fresh editor (both flags clear) ignores a pointer move. -/
theorem continue_outside_mode_is_noop_witness :
    (construct plainPage).ed.isDragging = false ∧
      (construct plainPage).ed.isResizing = false ∧
      doDrag (sampleLayout 1000 707 200 100) (at_ 300 400) (construct plainPage) =
        construct plainPage ∧
      doResize (sampleLayout 1000 707 200 100) (at_ 300 400) (construct plainPage) =
        construct plainPage :=
  ⟨rfl, rfl,
    (continue_outside_mode_is_noop (sampleLayout 1000 707 200 100) (at_ 300 400)
      (construct plainPage)).1 rfl,
    (continue_outside_mode_is_noop (sampleLayout 1000 707 200 100) (at_ 300 400)
      (construct plainPage)).2 rfl⟩

/-- Rounding to a double as a relative perturbation of at most `2 ^ (-53)`. -/
theorem roundDouble_rel (q : ℚ) : ∃ δ : ℚ, |δ| ≤ 1 / 2 ^ 53 ∧ roundDouble q = q * (1 + δ) := by
  by_cases hq : q = 0
  · subst hq
    exact ⟨0, by norm_num, by simp [roundDouble_zero]⟩
  · refine ⟨(roundDouble q - q) / q, ?_, by field_simp⟩
    rw [abs_div, div_le_iff₀ (abs_pos.mpr hq)]
    have := roundDouble_error q
    calc |roundDouble q - q| ≤ |q| / 2 ^ 53 := this
      _ = 1 / 2 ^ 53 * |q| := by ring

/-- The value of `doDrag`'s horizontal target for a non-zero rendered width: four
rounded operations. -/
theorem dragTargetLeft_eq (lay : Layout) (e : MouseEvent) (ed : Editor)
    (hw : lay.rectWidth ≠ 0) :
    dragTargetLeft lay e ed =
      fin (roundDouble (ed.elStartLeft +
        roundDouble (roundDouble (e.clientX - ed.dragStartX) *
          roundDouble (((lay.containerOffsetWidth : ℕ) : ℚ) / lay.rectWidth)))) := by
  simp [dragTargetLeft, scaleX, fin_div_fin _ hw]

/-- The value of `doDrag`'s vertical target for a non-zero rendered height. -/
theorem dragTargetTop_eq (lay : Layout) (e : MouseEvent) (ed : Editor)
    (hh : lay.rectHeight ≠ 0) :
    dragTargetTop lay e ed =
      fin (roundDouble (ed.elStartTop +
        roundDouble (roundDouble (e.clientY - ed.dragStartY) *
          roundDouble (((lay.containerOffsetHeight : ℕ) : ℚ) / lay.rectHeight)))) := by
  simp [dragTargetTop, scaleY, fin_div_fin _ hh]

/-- The double evaluation `a + d * (w / r)` as the exact value perturbed four times. -/
theorem rounded_target_rel (a d w r : ℚ) :
    ∃ δ₀ δ₁ δ₂ δ₃ : ℚ, |δ₀| ≤ 1 / 2 ^ 53 ∧ |δ₁| ≤ 1 / 2 ^ 53 ∧ |δ₂| ≤ 1 / 2 ^ 53 ∧
      |δ₃| ≤ 1 / 2 ^ 53 ∧
      roundDouble (a + roundDouble (roundDouble d * roundDouble (w / r))) =
        (a + d * (1 + δ₀) * (w / r * (1 + δ₁)) * (1 + δ₂)) * (1 + δ₃) := by
  obtain ⟨δ₀, h0, e0⟩ := roundDouble_rel d
  obtain ⟨δ₁, h1, e1⟩ := roundDouble_rel (w / r)
  obtain ⟨δ₂, h2, e2⟩ := roundDouble_rel (roundDouble d * roundDouble (w / r))
  obtain ⟨δ₃, h3, e3⟩ :=
    roundDouble_rel (a + roundDouble (roundDouble d * roundDouble (w / r)))
  refine ⟨δ₀, δ₁, δ₂, δ₃, h0, h1, h2, h3, ?_⟩
  rw [e3, e2, e0, e1]

/-- The double evaluation `a + d * (w / r)` when no operation needs rounding. -/
theorem rounded_target_exact (a d w r : ℚ) (h0 : roundDouble d = d)
    (h1 : roundDouble (w / r) = w / r) (h2 : roundDouble (d * (w / r)) = d * (w / r))
    (h3 : roundDouble (a + d * (w / r)) = a + d * (w / r)) :
    roundDouble (a + roundDouble (roundDouble d * roundDouble (w / r))) = a + d * w / r := by
  rw [h0, h1, h2, h3, mul_div_assoc]

/-- The scenario of the specification: scale 2 and a viewport delta of 100. -/
theorem rounded_target_scenario (a : ℤ) (d w r : ℚ) (ha : |a| < 2 ^ 52) (hd : d = 100)
    (hw : w / r = 2) :
    roundDouble (a + roundDouble (roundDouble d * roundDouble (w / r))) = a + 200 := by
  have r100 : roundDouble 100 = 100 := by
    have h := roundDouble_intCast 100 (by norm_num [abs_lt])
    norm_num at h
    exact h
  have r2 : roundDouble 2 = 2 := by
    have h := roundDouble_intCast 2 (by norm_num [abs_lt])
    norm_num at h
    exact h
  have r200 : roundDouble (100 * 2) = 200 := by
    have h := roundDouble_intCast 200 (by norm_num [abs_lt])
    norm_num at h ⊢
    exact h
  have rsum : roundDouble ((a : ℚ) + 200) = a + 200 := by
    have h := roundDouble_intCast (a + 200) (by rw [abs_lt] at ha ⊢; constructor <;> omega)
    push_cast at h
    exact h
  rw [hd, hw, r100, r2, r200, rsum]

/-- On zero and on the normal range the complete binary64 rounding is `roundDouble`:
no underflow, no overflow. -/
theorem toDouble_eq_roundDouble {x : ℚ} (h : InNormalRange x) :
    toDouble x = fin (roundDouble x) := by
  have hbig : (0 : ℚ) < (2 : ℚ) ^ (1024 : ℤ) := by positivity
  rcases h with rfl | ⟨hlo, hhi⟩
  · have hb : binade (0 : ℚ) = 0 := by simp [binade]
    simp only [toDouble, hb, zero_div]
    have : roundHalfEven (0 : ℚ) = 0 := by simp [roundHalfEven]
    rw [this, roundDouble_zero]
    simp only [Int.cast_zero, zero_mul]
    rw [if_neg (not_le.mpr hbig), if_neg (by linarith)]
  · have hpos : 0 < |x| := lt_of_lt_of_le (by positivity) hlo
    have hb : (-1022 : ℤ) ≤ binade x := by
      unfold binade
      rw [← Int.zpow_le_iff_le_log (by norm_num) hpos]
      simpa using hlo
    have hu : (2 : ℚ) ^ (Max.max (binade x) (-1022) - 52) = quantum x := by
      rw [max_eq_left hb]
      rfl
    have hr : (roundHalfEven (x / quantum x) : ℚ) * quantum x = roundDouble x := rfl
    have herr := roundDouble_error x
    have habs : |roundDouble x| < (2 : ℚ) ^ (1024 : ℤ) := by
      have h1 : |roundDouble x| ≤ |roundDouble x - x| + |x| := by
        have := abs_add (roundDouble x - x) x
        simpa using this
      have h2 : |x| / 2 ^ 53 ≤ |x| := by
        apply div_le_self (abs_nonneg x)
        norm_num
      have h3 : (2 : ℚ) ^ (1024 : ℤ) = 2 * (2 : ℚ) ^ (1023 : ℤ) := by
        rw [show (1024 : ℤ) = 1 + 1023 by norm_num, zpow_add₀ (by norm_num : (2 : ℚ) ≠ 0)]
        norm_num
      rw [h3]
      linarith
    have h' := abs_lt.mp habs
    simp only [toDouble, hu, hr]
    rw [if_neg (not_le.mpr h'.2), if_neg (not_le.mpr h'.1)]

/-- Inside the normal range each of the four operations of `a + (c - d) * (w / r)` is
the complete binary64 operation. -/
theorem target_agrees {a c d w r : ℚ} (h : TargetInRange a c d w r) :
    toDouble (c - d) = fin (roundDouble (c - d)) ∧
      toDouble (w / r) = fin (roundDouble (w / r)) ∧
      toDouble (roundDouble (c - d) * roundDouble (w / r)) =
        fin (roundDouble (roundDouble (c - d) * roundDouble (w / r))) ∧
      toDouble (a + roundDouble (roundDouble (c - d) * roundDouble (w / r))) =
        fin (roundDouble (a + roundDouble (roundDouble (c - d) * roundDouble (w / r)))) :=
  ⟨toDouble_eq_roundDouble h.1.1, toDouble_eq_roundDouble h.1.2.1,
    toDouble_eq_roundDouble h.1.2.2, toDouble_eq_roundDouble h.2⟩

/-- Claim C8, amended: for a non-zero rendered size the position `doDrag` clamps is
the double evaluation of `elStartLeft + dx * (offsetWidth / renderedWidth)` (and of
`elStartTop + dy * (offsetHeight / renderedHeight)`), the scale being read from the
layout of the call: the pointer difference, the quotient, the product and the sum are
each rounded to the nearest double, a relative perturbation of at most `2 ^ (-53)`
each so long as none of them leaves the normal range.  It is the exact
`elStartLeft + dx * offsetWidth / renderedWidth` when none of the four needs
rounding; so on a 2000x1414 surface rendered at 1000x707 a viewport delta of
(100, 100) gives the start position plus (200, 200). -/
theorem doDrag_target_formula (lay : Layout) (e : MouseEvent) (s : State) (el : BlockId)
    (hd : s.ed.isDragging = true) (hs : s.ed.selectedEl = some el)
    (hw : lay.rectWidth ≠ 0) (hh : lay.rectHeight ≠ 0) :
    ((doDrag lay e s).page.blocks el).left =
        assignPx (s.page.blocks el).left
          (clampInside (dragTargetLeft lay e s.ed) lay.containerOffsetWidth
            (lay.offsetWidth el)) ∧
      ((doDrag lay e s).page.blocks el).top =
        assignPx (s.page.blocks el).top
          (clampInside (dragTargetTop lay e s.ed) lay.containerOffsetHeight
            (lay.offsetHeight el)) ∧
      (TargetInRange s.ed.elStartLeft e.clientX s.ed.dragStartX
          (lay.containerOffsetWidth : ℕ) lay.rectWidth →
        (toDouble (e.clientX - s.ed.dragStartX) =
            fin (roundDouble (e.clientX - s.ed.dragStartX)) ∧
          toDouble (((lay.containerOffsetWidth : ℕ) : ℚ) / lay.rectWidth) =
            fin (roundDouble (((lay.containerOffsetWidth : ℕ) : ℚ) / lay.rectWidth)) ∧
          toDouble (roundDouble (e.clientX - s.ed.dragStartX) *
              roundDouble (((lay.containerOffsetWidth : ℕ) : ℚ) / lay.rectWidth)) =
            fin (roundDouble (roundDouble (e.clientX - s.ed.dragStartX) *
              roundDouble (((lay.containerOffsetWidth : ℕ) : ℚ) / lay.rectWidth))) ∧
          toDouble (s.ed.elStartLeft + roundDouble (roundDouble (e.clientX - s.ed.dragStartX) *
              roundDouble (((lay.containerOffsetWidth : ℕ) : ℚ) / lay.rectWidth))) =
            dragTargetLeft lay e s.ed) ∧
        (∃ δ₀ δ₁ δ₂ δ₃ : ℚ, |δ₀| ≤ 1 / 2 ^ 53 ∧ |δ₁| ≤ 1 / 2 ^ 53 ∧ |δ₂| ≤ 1 / 2 ^ 53 ∧
          |δ₃| ≤ 1 / 2 ^ 53 ∧
          dragTargetLeft lay e s.ed =
            fin ((s.ed.elStartLeft + (e.clientX - s.ed.dragStartX) * (1 + δ₀) *
              (((lay.containerOffsetWidth : ℕ) : ℚ) / lay.rectWidth * (1 + δ₁)) * (1 + δ₂)) *
                (1 + δ₃))) ∧
        (roundDouble (e.clientX - s.ed.dragStartX) = e.clientX - s.ed.dragStartX →
          roundDouble (((lay.containerOffsetWidth : ℕ) : ℚ) / lay.rectWidth) =
            ((lay.containerOffsetWidth : ℕ) : ℚ) / lay.rectWidth →
          roundDouble ((e.clientX - s.ed.dragStartX) *
              (((lay.containerOffsetWidth : ℕ) : ℚ) / lay.rectWidth)) =
            (e.clientX - s.ed.dragStartX) *
              (((lay.containerOffsetWidth : ℕ) : ℚ) / lay.rectWidth) →
          roundDouble (s.ed.elStartLeft + (e.clientX - s.ed.dragStartX) *
              (((lay.containerOffsetWidth : ℕ) : ℚ) / lay.rectWidth)) =
            s.ed.elStartLeft + (e.clientX - s.ed.dragStartX) *
              (((lay.containerOffsetWidth : ℕ) : ℚ) / lay.rectWidth) →
          dragTargetLeft lay e s.ed =
            fin (s.ed.elStartLeft +
              (e.clientX - s.ed.dragStartX) * (lay.containerOffsetWidth : ℕ) /
                lay.rectWidth))) ∧
      (TargetInRange s.ed.elStartTop e.clientY s.ed.dragStartY
          (lay.containerOffsetHeight : ℕ) lay.rectHeight →
        (toDouble (e.clientY - s.ed.dragStartY) =
            fin (roundDouble (e.clientY - s.ed.dragStartY)) ∧
          toDouble (((lay.containerOffsetHeight : ℕ) : ℚ) / lay.rectHeight) =
            fin (roundDouble (((lay.containerOffsetHeight : ℕ) : ℚ) / lay.rectHeight)) ∧
          toDouble (roundDouble (e.clientY - s.ed.dragStartY) *
              roundDouble (((lay.containerOffsetHeight : ℕ) : ℚ) / lay.rectHeight)) =
            fin (roundDouble (roundDouble (e.clientY - s.ed.dragStartY) *
              roundDouble (((lay.containerOffsetHeight : ℕ) : ℚ) / lay.rectHeight))) ∧
          toDouble (s.ed.elStartTop + roundDouble (roundDouble (e.clientY - s.ed.dragStartY) *
              roundDouble (((lay.containerOffsetHeight : ℕ) : ℚ) / lay.rectHeight))) =
            dragTargetTop lay e s.ed) ∧
        (∃ δ₀ δ₁ δ₂ δ₃ : ℚ, |δ₀| ≤ 1 / 2 ^ 53 ∧ |δ₁| ≤ 1 / 2 ^ 53 ∧ |δ₂| ≤ 1 / 2 ^ 53 ∧
          |δ₃| ≤ 1 / 2 ^ 53 ∧
          dragTargetTop lay e s.ed =
            fin ((s.ed.elStartTop + (e.clientY - s.ed.dragStartY) * (1 + δ₀) *
              (((lay.containerOffsetHeight : ℕ) : ℚ) / lay.rectHeight * (1 + δ₁)) *
                (1 + δ₂)) * (1 + δ₃))) ∧
        (roundDouble (e.clientY - s.ed.dragStartY) = e.clientY - s.ed.dragStartY →
          roundDouble (((lay.containerOffsetHeight : ℕ) : ℚ) / lay.rectHeight) =
            ((lay.containerOffsetHeight : ℕ) : ℚ) / lay.rectHeight →
          roundDouble ((e.clientY - s.ed.dragStartY) *
              (((lay.containerOffsetHeight : ℕ) : ℚ) / lay.rectHeight)) =
            (e.clientY - s.ed.dragStartY) *
              (((lay.containerOffsetHeight : ℕ) : ℚ) / lay.rectHeight) →
          roundDouble (s.ed.elStartTop + (e.clientY - s.ed.dragStartY) *
              (((lay.containerOffsetHeight : ℕ) : ℚ) / lay.rectHeight)) =
            s.ed.elStartTop + (e.clientY - s.ed.dragStartY) *
              (((lay.containerOffsetHeight : ℕ) : ℚ) / lay.rectHeight) →
          dragTargetTop lay e s.ed =
            fin (s.ed.elStartTop +
              (e.clientY - s.ed.dragStartY) * (lay.containerOffsetHeight : ℕ) /
                lay.rectHeight))) ∧
      (lay.containerOffsetWidth = 2000 → lay.containerOffsetHeight = 1414 →
        lay.rectWidth = 1000 → lay.rectHeight = 707 →
        e.clientX - s.ed.dragStartX = 100 → e.clientY - s.ed.dragStartY = 100 →
        |s.ed.elStartLeft| < 2 ^ 52 → |s.ed.elStartTop| < 2 ^ 52 →
        dragTargetLeft lay e s.ed = fin (s.ed.elStartLeft + 200) ∧
          dragTargetTop lay e s.ed = fin (s.ed.elStartTop + 200)) := by
  have hx := dragTargetLeft_eq lay e s.ed hw
  have hy := dragTargetTop_eq lay e s.ed hh
  refine ⟨(doDrag_writes lay e s el hd hs).1, (doDrag_writes lay e s el hd hs).2, ?_, ?_, ?_⟩
  · intro hr
    obtain ⟨a0, a1, a2, a3⟩ := target_agrees hr
    refine ⟨⟨a0, a1, a2, by rw [a3, hx]⟩, ?_, ?_⟩
    · obtain ⟨δ₀, δ₁, δ₂, δ₃, h0, h1, h2, h3, h⟩ :=
        rounded_target_rel s.ed.elStartLeft (e.clientX - s.ed.dragStartX)
          (lay.containerOffsetWidth : ℕ) lay.rectWidth
      exact ⟨δ₀, δ₁, δ₂, δ₃, h0, h1, h2, h3, by rw [hx, h]⟩
    · intro h0 h1 h2 h3
      rw [hx, rounded_target_exact _ _ _ _ h0 h1 h2 h3]
  · intro hr
    obtain ⟨a0, a1, a2, a3⟩ := target_agrees hr
    refine ⟨⟨a0, a1, a2, by rw [a3, hy]⟩, ?_, ?_⟩
    · obtain ⟨δ₀, δ₁, δ₂, δ₃, h0, h1, h2, h3, h⟩ :=
        rounded_target_rel s.ed.elStartTop (e.clientY - s.ed.dragStartY)
          (lay.containerOffsetHeight : ℕ) lay.rectHeight
      exact ⟨δ₀, δ₁, δ₂, δ₃, h0, h1, h2, h3, by rw [hy, h]⟩
    · intro h0 h1 h2 h3
      rw [hy, rounded_target_exact _ _ _ _ h0 h1 h2 h3]
  · intro h1 h2 h3 h4 h5 h6 h7 h8
    have sx : ((lay.containerOffsetWidth : ℕ) : ℚ) / lay.rectWidth = 2 := by
      rw [h1, h3]
      have : ((2000 : Long) : ℕ) = 2000 := rfl
      rw [this]
      norm_num
    have sy : ((lay.containerOffsetHeight : ℕ) : ℚ) / lay.rectHeight = 2 := by
      rw [h2, h4]
      have : ((1414 : Long) : ℕ) = 1414 := rfl
      rw [this]
      norm_num
    rw [hx, hy, rounded_target_scenario _ _ _ _ h7 h5 sx,
      rounded_target_scenario _ _ _ _ h8 h6 sy]
    exact ⟨rfl, rfl⟩

/-- The pointer difference of the 485px example is exact. -/
theorem narrow_diff : roundDouble (107 - 10) = 97 := by
  have h := roundDouble_intCast 97 (by norm_num [abs_lt])
  norm_num at h ⊢
  exact h

/-- The scale `2000 / 485` is not a double: it rounds to `4642886213784016 * 2 ^ (-50)`. -/
theorem narrow_scale : roundDouble (2000 / 485) = 4642886213784016 * (2 : ℚ) ^ (-50 : ℤ) := by
  have h := roundDouble_eq_of_near (q := 2000 / 485) (e := -50) (m := 4642886213784016)
    (by norm_num [abs_of_pos]) (by norm_num [abs_of_pos]) (by norm_num [abs_lt])
  simpa using h

/-- The product of 97 and the rounded scale rounds to `400 - 2 ^ (-44)`. -/
theorem narrow_product :
    roundDouble (97 * (4642886213784016 * (2 : ℚ) ^ (-50 : ℤ))) =
      7036874417766399 * (2 : ℚ) ^ (-44 : ℤ) := by
  have h := roundDouble_eq_of_near (q := 97 * (4642886213784016 * (2 : ℚ) ^ (-50 : ℤ)))
    (e := -44) (m := 7036874417766399)
    (by norm_num [abs_of_pos]) (by norm_num [abs_of_pos]) (by norm_num [abs_lt])
  simpa using h

/-- The final sum of the 485px example is exact: `500 - 2 ^ (-44)`. -/
theorem narrow_sum :
    roundDouble (((100 : ℤ) : ℚ) + 7036874417766399 * (2 : ℚ) ^ (-44 : ℤ)) =
      500 - 1 / 2 ^ 44 := by
  have h := roundDouble_mul_zpow 8796093022207999 (-44) (by norm_num [abs_lt])
  have e : ((100 : ℤ) : ℚ) + 7036874417766399 * (2 : ℚ) ^ (-44 : ℤ) =
      ((8796093022207999 : ℤ) : ℚ) * (2 : ℚ) ^ (-44 : ℤ) := by norm_num
  rw [e, h]
  norm_num

/-- The four operations of the 485px example stay in the normal range. -/
theorem narrow_in_range :
    TargetInRange (draggingState narrowView).ed.elStartLeft (at_ 107 10).clientX
      (draggingState narrowView).ed.dragStartX (narrowView.containerOffsetWidth : ℕ)
      narrowView.rectWidth := by
  have hs : (draggingState narrowView).ed.elStartLeft = 100 := by decide
  have hx : (draggingState narrowView).ed.dragStartX = 10 := rfl
  have c1 : ((narrowView.containerOffsetWidth : ℕ) : ℚ) = 2000 := by
    have : (narrowView.containerOffsetWidth : ℕ) = 2000 := rfl
    rw [this]; norm_num
  have c2 : narrowView.rectWidth = 485 := rfl
  have c3 : (at_ 107 10).clientX = 107 := rfl
  rw [hs, hx, c1, c2, c3]
  refine ⟨⟨Or.inr ?_, Or.inr ?_, Or.inr ?_⟩, Or.inr ?_⟩
  · norm_num [abs_of_pos]
  · norm_num [abs_of_pos]
  · rw [narrow_diff, narrow_scale]
    norm_num [abs_of_pos]
  · rw [narrow_diff, narrow_scale, narrow_product]
    norm_num [abs_of_pos]

/-- Witness for C8 amended: the 50% scenario, pointer moved from (10, 10) to (110, 110),
block starting at (100, 50): the target is (300, 250); and the 485px example, inside
the normal range: its target is the exact value perturbed four times. -/
theorem doDrag_target_formula_witness :
    (dragTargetLeft (sampleLayout 1000 707 200 100) (at_ 110 110)
        (draggingState (sampleLayout 1000 707 200 100)).ed = fin 300 ∧
      dragTargetTop (sampleLayout 1000 707 200 100) (at_ 110 110)
        (draggingState (sampleLayout 1000 707 200 100)).ed = fin 250) ∧
    ∃ δ₀ δ₁ δ₂ δ₃ : ℚ, |δ₀| ≤ 1 / 2 ^ 53 ∧ |δ₁| ≤ 1 / 2 ^ 53 ∧ |δ₂| ≤ 1 / 2 ^ 53 ∧
      |δ₃| ≤ 1 / 2 ^ 53 ∧
      dragTargetLeft narrowView (at_ 107 10) (draggingState narrowView).ed =
        fin (((draggingState narrowView).ed.elStartLeft +
          ((at_ 107 10).clientX - (draggingState narrowView).ed.dragStartX) * (1 + δ₀) *
            (((narrowView.containerOffsetWidth : ℕ) : ℚ) / narrowView.rectWidth * (1 + δ₁)) *
              (1 + δ₂)) * (1 + δ₃)) := by
  have e1 : (draggingState (sampleLayout 1000 707 200 100)).ed.elStartLeft = 100 := by decide
  have e2 : (draggingState (sampleLayout 1000 707 200 100)).ed.elStartTop = 50 := by decide
  have h := (doDrag_target_formula (sampleLayout 1000 707 200 100) (at_ 110 110)
    (draggingState (sampleLayout 1000 707 200 100)) 0 rfl rfl (by decide)
    (by decide)).2.2.2.2
    rfl rfl rfl rfl (by show (110 : ℚ) - 10 = 100; norm_num)
    (by show (110 : ℚ) - 10 = 100; norm_num) (by rw [e1]; norm_num [abs_lt])
    (by rw [e2]; norm_num [abs_lt])
  rw [e1, e2] at h
  norm_num at h
  exact ⟨h, ((doDrag_target_formula narrowView (at_ 107 10) (draggingState narrowView) 0
    rfl rfl (by decide) (by decide)).2.2.1 narrow_in_range).2.1⟩

/-- Claim C8 fails as stated: on a 2000 wide surface rendered 485 wide, a block
starting at left 100 and a pointer move of 97 give the exact value
`100 + 97 * 2000 / 485 = 500`, but the rounded operations of `doDrag` give
`500 - 2 ^ (-44)` (printed 499.99999999999994). -/
theorem drag_target_rounding_counterexample :
    dragTargetLeft narrowView (at_ 107 10) (draggingState narrowView).ed =
        fin (500 - 1 / 2 ^ 44) ∧
      ((draggingState narrowView).ed.elStartLeft : ℚ) +
          ((at_ 107 10).clientX - (draggingState narrowView).ed.dragStartX) *
            (narrowView.containerOffsetWidth : ℕ) / narrowView.rectWidth = 500 ∧
      dragTargetLeft narrowView (at_ 107 10) (draggingState narrowView).ed ≠
        fin ((draggingState narrowView).ed.elStartLeft +
          ((at_ 107 10).clientX - (draggingState narrowView).ed.dragStartX) *
            (narrowView.containerOffsetWidth : ℕ) / narrowView.rectWidth) := by
  have hs : (draggingState narrowView).ed.elStartLeft = 100 := by decide
  have hx : (draggingState narrowView).ed.dragStartX = 10 := rfl
  have c1 : (((2000 : Long) : ℕ) : ℚ) = 2000 := by
    have : ((2000 : Long) : ℕ) = 2000 := rfl
    rw [this]; norm_num
  have ht : dragTargetLeft narrowView (at_ 107 10) (draggingState narrowView).ed =
      fin (500 - 1 / 2 ^ 44) := by
    simp only [dragTargetLeft, scaleX, hs, hx]
    simp only [narrowView, sampleLayout, at_]
    rw [c1, fin_sub_fin, fin_div_fin _ (by norm_num), fin_mul_fin, fin_add_fin, narrow_diff, narrow_scale,
      narrow_product, narrow_sum]
  have hex : ((draggingState narrowView).ed.elStartLeft : ℚ) +
      ((at_ 107 10).clientX - (draggingState narrowView).ed.dragStartX) *
        (narrowView.containerOffsetWidth : ℕ) / narrowView.rectWidth = 500 := by
    rw [hs, hx]
    simp only [narrowView, sampleLayout, at_]
    rw [c1]
    norm_num
  refine ⟨ht, hex, ?_⟩
  rw [ht, hex]
  intro h
  have h' := JSNum.fin.inj h
  norm_num at h'

/-- A `long` size divided by a zero rendered size: `Infinity`, or `NaN` for `0 / 0`. -/
theorem long_div_zero (w : Long) :
    (fin ((w : ℕ) : ℚ) / fin 0 : JSNum) = if w = 0 then nan else posInf := by
  rw [fin_div_zero]
  by_cases h : w = 0
  · subst h
    simp
  · have hne : (w : ℕ) ≠ 0 := fun h0 => h (Fin.ext h0)
    have hpos : (0 : ℚ) < (w : ℕ) := by exact_mod_cast Nat.pos_of_ne_zero hne
    simp [h, hpos, ne_of_gt hpos]

/-- A pointer delta times the degenerate scale. -/
theorem delta_mul_degenerate (c d : ℚ) (w : Long) :
    ((fin c - fin d) * (if w = 0 then nan else posInf) : JSNum) =
      if w = 0 ∨ c = d then nan else if d < c then posInf else negInf := by
  rw [fin_sub_fin]
  by_cases h : w = 0
  · simp [h]
  · by_cases hcd : c = d
    · simp [h, hcd, infTimes, roundDouble_zero]
    · have hne : roundDouble (c - d) ≠ 0 := by
        rw [Ne, roundDouble_eq_zero_iff]
        exact sub_ne_zero.mpr hcd
      by_cases hlt : d < c
      · have hp : 0 < roundDouble (c - d) := roundDouble_pos (by linarith)
        simp [h, hcd, hlt, infTimes, hne, hp]
      · have hn : ¬ 0 < roundDouble (c - d) := by
          rw [roundDouble_pos_iff]
          linarith [not_lt.mp hlt]
        simp [h, hcd, hlt, infTimes, hne, hn]

/-- The drag clamp applied to a target computed with the degenerate scale. -/
theorem clamp_degenerate (a c d : ℚ) (w outer inner : Long) :
    clampInside (fin a + (fin c - fin d) * (if w = 0 then nan else posInf)) outer inner =
      if w = 0 ∨ c = d then nan
      else if d < c then fin (Max.max 0 (((outer : ℕ) : ℚ) - (inner : ℕ))) else fin 0 := by
  rw [delta_mul_degenerate]
  unfold clampInside
  rw [long_sub_exact]
  by_cases h : w = 0 ∨ c = d
  · simp [h]
  · by_cases hlt : d < c
    · simp [h, hlt]
    · simp [h, hlt, JSNum.max]

/-- The resize floor applied to a delta computed with the degenerate scale. -/
theorem floor_degenerate (k a c d : ℚ) (w : Long) :
    JSNum.max (fin k) (fin a + (fin c - fin d) * (if w = 0 then nan else posInf)) =
      if w = 0 ∨ c = d then nan else if d < c then posInf else fin k := by
  rw [delta_mul_degenerate]
  by_cases h : w = 0 ∨ c = d
  · simp [h]
  · by_cases hlt : d < c
    · simp [h, hlt]
    · simp [h, hlt]

/-- The horizontal axis with a zero rendered width: scale, clamped drag target and
floored resize width. -/
theorem degenerate_width (lay : Layout) (e : MouseEvent) (ed : Editor) (el : BlockId)
    (h0 : lay.rectWidth = 0) :
    scaleX lay = (if lay.containerOffsetWidth = 0 then nan else posInf) ∧
      clampInside (dragTargetLeft lay e ed) lay.containerOffsetWidth (lay.offsetWidth el) =
        (if lay.containerOffsetWidth = 0 ∨ e.clientX = ed.dragStartX then nan
         else if ed.dragStartX < e.clientX then
           fin (Max.max 0 (((lay.containerOffsetWidth : ℕ) : ℚ) - (lay.offsetWidth el : ℕ)))
         else fin 0) ∧
      JSNum.max (fin 80) (fin ed.elStartW + resizeDx lay e ed) =
        (if lay.containerOffsetWidth = 0 ∨ e.clientX = ed.resizeStartX then nan
         else if ed.resizeStartX < e.clientX then posInf else fin 80) := by
  have hsc : scaleX lay = (if lay.containerOffsetWidth = 0 then nan else posInf) := by
    rw [scaleX, h0, long_div_zero]
  refine ⟨hsc, ?_, ?_⟩
  · rw [dragTargetLeft, hsc, clamp_degenerate]
  · rw [resizeDx, hsc, floor_degenerate]

/-- The vertical axis with a zero rendered height: scale, clamped drag target and
floored resize height. -/
theorem degenerate_height (lay : Layout) (e : MouseEvent) (ed : Editor) (el : BlockId)
    (h0 : lay.rectHeight = 0) :
    scaleY lay = (if lay.containerOffsetHeight = 0 then nan else posInf) ∧
      clampInside (dragTargetTop lay e ed) lay.containerOffsetHeight (lay.offsetHeight el) =
        (if lay.containerOffsetHeight = 0 ∨ e.clientY = ed.dragStartY then nan
         else if ed.dragStartY < e.clientY then
           fin (Max.max 0 (((lay.containerOffsetHeight : ℕ) : ℚ) - (lay.offsetHeight el : ℕ)))
         else fin 0) ∧
      JSNum.max (fin 30) (fin ed.elStartH + resizeDy lay e ed) =
        (if lay.containerOffsetHeight = 0 ∨ e.clientY = ed.resizeStartY then nan
         else if ed.resizeStartY < e.clientY then posInf else fin 30) := by
  have hsc : scaleY lay = (if lay.containerOffsetHeight = 0 then nan else posInf) := by
    rw [scaleY, h0, long_div_zero]
  refine ⟨hsc, ?_, ?_⟩
  · rw [dragTargetTop, hsc, clamp_degenerate]
  · rw [resizeDy, hsc, floor_degenerate]

/-- Claim C5, amended: with a zero rendered width (height) `doDrag` and `doResize`
still return a state, but no identity scale is substituted: the scale is
`offsetWidth / 0`, i.e. `Infinity`, or `NaN` when the offset size is zero as well.
`doDrag` then assigns NaN (zero pointer delta or zero offset size), the far bound
`max(0, surface - block)` (positive delta) or `0` (negative delta); `doResize` assigns
NaN, `Infinity` or the floor (80, resp. 30).  An assigned NaN or `Infinity` is
discarded by the style, which keeps its previous value. -/
theorem degenerate_scale_not_guarded (lay : Layout) (e : MouseEvent) (s : State)
    (el : BlockId) :
    (lay.rectWidth = 0 →
      scaleX lay = (if lay.containerOffsetWidth = 0 then nan else posInf) ∧
      clampInside (dragTargetLeft lay e s.ed) lay.containerOffsetWidth (lay.offsetWidth el) =
        (if lay.containerOffsetWidth = 0 ∨ e.clientX = s.ed.dragStartX then nan
         else if s.ed.dragStartX < e.clientX then
           fin (Max.max 0 (((lay.containerOffsetWidth : ℕ) : ℚ) - (lay.offsetWidth el : ℕ)))
         else fin 0) ∧
      JSNum.max (fin 80) (fin s.ed.elStartW + resizeDx lay e s.ed) =
        (if lay.containerOffsetWidth = 0 ∨ e.clientX = s.ed.resizeStartX then nan
         else if s.ed.resizeStartX < e.clientX then posInf else fin 80) ∧
      (s.ed.isDragging = true → s.ed.selectedEl = some el →
        ((doDrag lay e s).page.blocks el).left =
          (if lay.containerOffsetWidth = 0 ∨ e.clientX = s.ed.dragStartX then
             (s.page.blocks el).left
           else if s.ed.dragStartX < e.clientX then
             some (fin (Max.max 0
               (((lay.containerOffsetWidth : ℕ) : ℚ) - (lay.offsetWidth el : ℕ))))
           else some (fin 0))) ∧
      (s.ed.isResizing = true → s.ed.selectedEl = some el →
        ((doResize lay e s).page.blocks el).width =
          (if lay.containerOffsetWidth = 0 ∨ e.clientX = s.ed.resizeStartX then
             (s.page.blocks el).width
           else if s.ed.resizeStartX < e.clientX then (s.page.blocks el).width
           else some (fin 80)))) ∧
    (lay.rectHeight = 0 →
      scaleY lay = (if lay.containerOffsetHeight = 0 then nan else posInf) ∧
      clampInside (dragTargetTop lay e s.ed) lay.containerOffsetHeight
          (lay.offsetHeight el) =
        (if lay.containerOffsetHeight = 0 ∨ e.clientY = s.ed.dragStartY then nan
         else if s.ed.dragStartY < e.clientY then
           fin (Max.max 0 (((lay.containerOffsetHeight : ℕ) : ℚ) - (lay.offsetHeight el : ℕ)))
         else fin 0) ∧
      JSNum.max (fin 30) (fin s.ed.elStartH + resizeDy lay e s.ed) =
        (if lay.containerOffsetHeight = 0 ∨ e.clientY = s.ed.resizeStartY then nan
         else if s.ed.resizeStartY < e.clientY then posInf else fin 30) ∧
      (s.ed.isDragging = true → s.ed.selectedEl = some el →
        ((doDrag lay e s).page.blocks el).top =
          (if lay.containerOffsetHeight = 0 ∨ e.clientY = s.ed.dragStartY then
             (s.page.blocks el).top
           else if s.ed.dragStartY < e.clientY then
             some (fin (Max.max 0
               (((lay.containerOffsetHeight : ℕ) : ℚ) - (lay.offsetHeight el : ℕ))))
           else some (fin 0))) ∧
      (s.ed.isResizing = true → s.ed.selectedEl = some el →
        ((doResize lay e s).page.blocks el).minHeight =
          (if lay.containerOffsetHeight = 0 ∨ e.clientY = s.ed.resizeStartY then
             (s.page.blocks el).minHeight
           else if s.ed.resizeStartY < e.clientY then (s.page.blocks el).minHeight
           else some (fin 30)))) := by
  constructor
  · intro h0
    obtain ⟨hsc, hcl, hfl⟩ := degenerate_width lay e s.ed el h0
    refine ⟨hsc, hcl, hfl, ?_, ?_⟩
    · intro hd hs
      rw [(doDrag_writes lay e s el hd hs).1, hcl]
      split_ifs <;> rfl
    · intro hr hs
      rw [(doResize_writes lay e s el hr hs).1, hfl]
      split_ifs <;> rfl
  · intro h0
    obtain ⟨hsc, hcl, hfl⟩ := degenerate_height lay e s.ed el h0
    refine ⟨hsc, hcl, hfl, ?_, ?_⟩
    · intro hd hs
      rw [(doDrag_writes lay e s el hd hs).2, hcl]
      split_ifs <;> rfl
    · intro hr hs
      rw [(doResize_writes lay e s el hr hs).2, hfl]
      split_ifs <;> rfl

/-- Witness for C5 amended: surface 2000x1414 with zero rendered size, block 200x100,
pointer moved right by 10: the block lands on the far bound 1800. -/
theorem degenerate_scale_not_guarded_witness :
    (sampleLayout 0 0 200 100).rectWidth = 0 ∧
      scaleX (sampleLayout 0 0 200 100) = posInf ∧
      ((doDrag (sampleLayout 0 0 200 100) (at_ 20 10)
        (draggingState (sampleLayout 0 0 200 100))).page.blocks 0).left =
          some (fin 1800) := by
  have h := (degenerate_scale_not_guarded (sampleLayout 0 0 200 100) (at_ 20 10)
    (draggingState (sampleLayout 0 0 200 100)) 0).1 rfl
  refine ⟨rfl, ?_, ?_⟩
  · rw [h.1, if_neg (by decide)]
  · have h2 := h.2.2.2.1 rfl rfl
    rw [h2]
    have c1 : ((sampleLayout 0 0 200 100).containerOffsetWidth : ℕ) = 2000 := rfl
    have c2 : (((sampleLayout 0 0 200 100).offsetWidth 0 : Long) : ℕ) = 200 := rfl
    have c3 : (sampleLayout 0 0 200 100).containerOffsetWidth ≠ 0 := by decide
    have c4 : (at_ 20 10).clientX ≠ (draggingState (sampleLayout 0 0 200 100)).ed.dragStartX := by
      show (20 : ℚ) ≠ 10
      norm_num
    have c5 : (draggingState (sampleLayout 0 0 200 100)).ed.dragStartX < (at_ 20 10).clientX := by
      show (10 : ℚ) < 20
      norm_num
    rw [if_neg (by simp [c3, c4]), if_pos c5, c1, c2]
    norm_num

/-- Claim C5 fails as stated: with a zero rendered width the scale is `Infinity`, not
1.  A pointer move of +10 from a block at left 100 writes 1800 where an identity
scale would write 110; a pointer move of 0 assigns NaN, which the style discards: no
position is applied. -/
theorem identity_scale_counterexample :
    scaleX (sampleLayout 0 0 200 100) ≠ fin 1 ∧
      ((doDrag (sampleLayout 0 0 200 100) (at_ 20 10)
        (draggingState (sampleLayout 0 0 200 100))).page.blocks 0).left = some (fin 1800) ∧
      clampInside (fin (100 + (20 - 10) * 1)) 2000 200 = fin 110 ∧
      clampInside (dragTargetLeft (sampleLayout 0 0 200 100) (at_ 10 10)
        (draggingState (sampleLayout 0 0 200 100)).ed) 2000 200 = nan ∧
      ((doDrag (sampleLayout 0 0 200 100) (at_ 10 10)
        (draggingState (sampleLayout 0 0 200 100))).page.blocks 0).left = none := by
  obtain ⟨hsc, hA, -⟩ := degenerate_width (sampleLayout 0 0 200 100) (at_ 20 10)
    (draggingState (sampleLayout 0 0 200 100)).ed 0 rfl
  obtain ⟨-, hB, -⟩ := degenerate_width (sampleLayout 0 0 200 100) (at_ 10 10)
    (draggingState (sampleLayout 0 0 200 100)).ed 0 rfl
  have c1 : ((sampleLayout 0 0 200 100).containerOffsetWidth : ℕ) = 2000 := rfl
  have c2 : (((sampleLayout 0 0 200 100).offsetWidth 0 : Long) : ℕ) = 200 := rfl
  have c3 : (sampleLayout 0 0 200 100).containerOffsetWidth ≠ 0 := by decide
  have c4 : (at_ 20 10).clientX ≠ (draggingState (sampleLayout 0 0 200 100)).ed.dragStartX := by
    show (20 : ℚ) ≠ 10
    norm_num
  have c5 : (draggingState (sampleLayout 0 0 200 100)).ed.dragStartX < (at_ 20 10).clientX := by
    show (10 : ℚ) < 20
    norm_num
  have c6 : (at_ 10 10).clientX = (draggingState (sampleLayout 0 0 200 100)).ed.dragStartX :=
    rfl
  rw [if_neg (by simp [c3, c4]), if_pos c5, c1, c2] at hA
  rw [if_pos (Or.inr c6)] at hB
  have hA' : clampInside (dragTargetLeft (sampleLayout 0 0 200 100) (at_ 20 10)
      (draggingState (sampleLayout 0 0 200 100)).ed)
      (sampleLayout 0 0 200 100).containerOffsetWidth
      ((sampleLayout 0 0 200 100).offsetWidth 0) = fin 1800 := by
    rw [hA]
    norm_num
  have wA := doDrag_writes (sampleLayout 0 0 200 100) (at_ 20 10)
    (draggingState (sampleLayout 0 0 200 100)) 0 rfl rfl
  have wB := doDrag_writes (sampleLayout 0 0 200 100) (at_ 10 10)
    (draggingState (sampleLayout 0 0 200 100)) 0 rfl rfl
  refine ⟨?_, ?_, ?_, hB, ?_⟩
  · rw [hsc, if_neg c3]
    exact fun h => JSNum.noConfusion h
  · rw [wA.1, hA']
    rfl
  · unfold clampInside
    rw [long_sub_exact]
    have d1 : ((2000 : Long) : ℕ) = 2000 := rfl
    have d2 : ((200 : Long) : ℕ) = 200 := rfl
    rw [d1, d2]
    norm_num
  · rw [wB.1, hB]
    rfl

/-- `Math.max(c, x)` of a finite `c` and a finite or `-Infinity` `x` is a finite
number, at least `c`. -/
theorem max_fin_floor (c : ℚ) (x : JSNum) (hn : x ≠ nan) (hp : x ≠ posInf) :
    ∃ w : ℚ, JSNum.max (fin c) x = fin w ∧ c ≤ w := by
  cases x with
  | fin q => exact ⟨Max.max c q, rfl, le_max_left _ _⟩
  | posInf => exact absurd rfl hp
  | negInf => exact ⟨c, rfl, le_rfl⟩
  | nan => exact absurd rfl hn

/-- Adding a finite number keeps a number other than NaN and `Infinity` so. -/
theorem fin_add_floor (c : ℚ) (x : JSNum) (hn : x ≠ nan) (hp : x ≠ posInf) :
    fin c + x ≠ nan ∧ fin c + x ≠ posInf := by
  cases x with
  | fin q => exact ⟨fun h => JSNum.noConfusion h, fun h => JSNum.noConfusion h⟩
  | posInf => exact absurd rfl hp
  | negInf => exact ⟨fun h => JSNum.noConfusion h, fun h => JSNum.noConfusion h⟩
  | nan => exact absurd rfl hn

/-- The value of `doResize`'s `dx` for a non-zero rendered width. -/
theorem resizeDx_eq (lay : Layout) (e : MouseEvent) (ed : Editor) (hw : lay.rectWidth ≠ 0) :
    resizeDx lay e ed =
      fin (roundDouble (roundDouble (e.clientX - ed.resizeStartX) *
        roundDouble (((lay.containerOffsetWidth : ℕ) : ℚ) / lay.rectWidth))) := by
  simp [resizeDx, scaleX, fin_div_fin _ hw]

/-- The value of `doResize`'s `dy` for a non-zero rendered height. -/
theorem resizeDy_eq (lay : Layout) (e : MouseEvent) (ed : Editor) (hh : lay.rectHeight ≠ 0) :
    resizeDy lay e ed =
      fin (roundDouble (roundDouble (e.clientY - ed.resizeStartY) *
        roundDouble (((lay.containerOffsetHeight : ℕ) : ℚ) / lay.rectHeight))) := by
  simp [resizeDy, scaleY, fin_div_fin _ hh]

/-- Claim C6, amended: in Resizing mode `doResize` assigns
`width = Math.max(80, elStartW + dx)` and `minHeight = Math.max(30, elStartH + dy)`,
`(dx, dy)` being the pointer delta times the scale in double arithmetic.  Whenever
`dx` (`dy`) is neither NaN nor `Infinity`, in particular whenever the rendered width
(height) is non-zero and no operation leaves the normal range, the assigned value is
finite and at least 80 (30) and it becomes the block's width (min-height); a block of start width 80 receiving
`dx = -50` is set to width 80.  When `dx` (`dy`) is NaN or `Infinity` the assigned
value is discarded and the width (min-height) stays what it was. -/
theorem doResize_formula_and_floor (lay : Layout) (e : MouseEvent) (s : State)
    (el : BlockId) (hr : s.ed.isResizing = true) (hs : s.ed.selectedEl = some el) :
    ((doResize lay e s).page.blocks el).width =
        assignPx (s.page.blocks el).width
          (JSNum.max (fin 80) (fin s.ed.elStartW + resizeDx lay e s.ed)) ∧
      ((doResize lay e s).page.blocks el).minHeight =
        assignPx (s.page.blocks el).minHeight
          (JSNum.max (fin 30) (fin s.ed.elStartH + resizeDy lay e s.ed)) ∧
      (resizeDx lay e s.ed ≠ nan → resizeDx lay e s.ed ≠ posInf →
        ∃ w : ℚ, JSNum.max (fin 80) (fin s.ed.elStartW + resizeDx lay e s.ed) = fin w ∧
          ((doResize lay e s).page.blocks el).width = some (fin w) ∧ 80 ≤ w) ∧
      (resizeDy lay e s.ed ≠ nan → resizeDy lay e s.ed ≠ posInf →
        ∃ h : ℚ, JSNum.max (fin 30) (fin s.ed.elStartH + resizeDy lay e s.ed) = fin h ∧
          ((doResize lay e s).page.blocks el).minHeight = some (fin h) ∧ 30 ≤ h) ∧
      (resizeDx lay e s.ed = nan ∨ resizeDx lay e s.ed = posInf →
        ((doResize lay e s).page.blocks el).width = (s.page.blocks el).width) ∧
      (resizeDy lay e s.ed = nan ∨ resizeDy lay e s.ed = posInf →
        ((doResize lay e s).page.blocks el).minHeight = (s.page.blocks el).minHeight) ∧
      (lay.rectWidth ≠ 0 →
        ScaledInRange e.clientX s.ed.resizeStartX (lay.containerOffsetWidth : ℕ)
          lay.rectWidth →
        toDouble (e.clientX - s.ed.resizeStartX) =
            fin (roundDouble (e.clientX - s.ed.resizeStartX)) ∧
          toDouble (((lay.containerOffsetWidth : ℕ) : ℚ) / lay.rectWidth) =
            fin (roundDouble (((lay.containerOffsetWidth : ℕ) : ℚ) / lay.rectWidth)) ∧
          toDouble (roundDouble (e.clientX - s.ed.resizeStartX) *
              roundDouble (((lay.containerOffsetWidth : ℕ) : ℚ) / lay.rectWidth)) =
            resizeDx lay e s.ed ∧
          ∃ w : ℚ, ((doResize lay e s).page.blocks el).width = some (fin w) ∧ 80 ≤ w) ∧
      (lay.rectHeight ≠ 0 →
        ScaledInRange e.clientY s.ed.resizeStartY (lay.containerOffsetHeight : ℕ)
          lay.rectHeight →
        toDouble (e.clientY - s.ed.resizeStartY) =
            fin (roundDouble (e.clientY - s.ed.resizeStartY)) ∧
          toDouble (((lay.containerOffsetHeight : ℕ) : ℚ) / lay.rectHeight) =
            fin (roundDouble (((lay.containerOffsetHeight : ℕ) : ℚ) / lay.rectHeight)) ∧
          toDouble (roundDouble (e.clientY - s.ed.resizeStartY) *
              roundDouble (((lay.containerOffsetHeight : ℕ) : ℚ) / lay.rectHeight)) =
            resizeDy lay e s.ed ∧
          ∃ h : ℚ, ((doResize lay e s).page.blocks el).minHeight = some (fin h) ∧ 30 ≤ h) ∧
      (s.ed.elStartW = 80 → resizeDx lay e s.ed = fin (-50) →
        ((doResize lay e s).page.blocks el).width = some (fin 80)) := by
  have hw := doResize_writes lay e s el hr hs
  have gw : resizeDx lay e s.ed ≠ nan → resizeDx lay e s.ed ≠ posInf →
      ∃ w : ℚ, JSNum.max (fin 80) (fin s.ed.elStartW + resizeDx lay e s.ed) = fin w ∧
        ((doResize lay e s).page.blocks el).width = some (fin w) ∧ 80 ≤ w := by
    intro hn hp
    obtain ⟨h1, h2⟩ := fin_add_floor s.ed.elStartW _ hn hp
    obtain ⟨w, e1, e2⟩ := max_fin_floor 80 _ h1 h2
    exact ⟨w, e1, by rw [hw.1, e1, assignPx_fin], e2⟩
  have gh : resizeDy lay e s.ed ≠ nan → resizeDy lay e s.ed ≠ posInf →
      ∃ h : ℚ, JSNum.max (fin 30) (fin s.ed.elStartH + resizeDy lay e s.ed) = fin h ∧
        ((doResize lay e s).page.blocks el).minHeight = some (fin h) ∧ 30 ≤ h := by
    intro hn hp
    obtain ⟨h1, h2⟩ := fin_add_floor s.ed.elStartH _ hn hp
    obtain ⟨h, e1, e2⟩ := max_fin_floor 30 _ h1 h2
    exact ⟨h, e1, by rw [hw.2, e1, assignPx_fin], e2⟩
  refine ⟨hw.1, hw.2, gw, gh, ?_, ?_, ?_, ?_, ?_⟩
  · rintro (h | h) <;> rw [hw.1, h] <;> rfl
  · rintro (h | h) <;> rw [hw.2, h] <;> rfl
  · intro h hr
    have hx := resizeDx_eq lay e s.ed h
    obtain ⟨w, -, e2, e3⟩ := gw (by rw [hx]; exact fun k => JSNum.noConfusion k)
      (by rw [hx]; exact fun k => JSNum.noConfusion k)
    exact ⟨toDouble_eq_roundDouble hr.1, toDouble_eq_roundDouble hr.2.1,
      by rw [toDouble_eq_roundDouble hr.2.2, hx], w, e2, e3⟩
  · intro h hr
    have hy := resizeDy_eq lay e s.ed h
    obtain ⟨w, -, e2, e3⟩ := gh (by rw [hy]; exact fun k => JSNum.noConfusion k)
      (by rw [hy]; exact fun k => JSNum.noConfusion k)
    exact ⟨toDouble_eq_roundDouble hr.1, toDouble_eq_roundDouble hr.2.1,
      by rw [toDouble_eq_roundDouble hr.2.2, hy], w, e2, e3⟩
  · intro h80 hdx
    have r30 : roundDouble (((80 : ℕ) : ℚ) + -50) = 30 := by
      have h := roundDouble_intCast 30 (by norm_num [abs_lt])
      norm_num at h ⊢
      exact h
    rw [hw.1, hdx, h80, fin_add_fin, r30, max_fin_fin, assignPx_fin]
    norm_num

/-- The three operations of the half-size resize example stay in the normal range. -/
theorem half_size_in_range :
    ScaledInRange (at_ (-15) 10).clientX
      (resizingState (sampleLayout 1000 707 80 30)).ed.resizeStartX
      ((sampleLayout 1000 707 80 30).containerOffsetWidth : ℕ)
      (sampleLayout 1000 707 80 30).rectWidth := by
  have hx : (resizingState (sampleLayout 1000 707 80 30)).ed.resizeStartX = 10 := rfl
  have c1 : (((sampleLayout 1000 707 80 30).containerOffsetWidth : ℕ) : ℚ) = 2000 := by
    have : ((sampleLayout 1000 707 80 30).containerOffsetWidth : ℕ) = 2000 := rfl
    rw [this]; norm_num
  have c2 : (sampleLayout 1000 707 80 30).rectWidth = 1000 := rfl
  have c3 : (at_ (-15) 10).clientX = -15 := rfl
  have r1 : roundDouble (-15 - 10) = -25 := by
    have h := roundDouble_intCast (-25) (by norm_num [abs_lt])
    norm_num at h ⊢
    exact h
  have r2 : roundDouble (2000 / 1000) = 2 := by
    have h := roundDouble_intCast 2 (by norm_num [abs_lt])
    norm_num at h ⊢
    exact h
  rw [hx, c1, c2, c3]
  refine ⟨Or.inr ?_, Or.inr ?_, Or.inr ?_⟩
  · norm_num [abs_of_neg]
  · norm_num [abs_of_pos]
  · rw [r1, r2]
    norm_num [abs_of_neg]

/-- Witness for C6 amended: a block of width 80 on a surface rendered at half size,
pointer moved left by 25 (logical delta -50): the width stays 80. -/
theorem doResize_formula_and_floor_witness :
    (resizingState (sampleLayout 1000 707 80 30)).ed.isResizing = true ∧
      (resizingState (sampleLayout 1000 707 80 30)).ed.elStartW = 80 ∧
      resizeDx (sampleLayout 1000 707 80 30) (at_ (-15) 10)
        (resizingState (sampleLayout 1000 707 80 30)).ed = fin (-50) ∧
      ((doResize (sampleLayout 1000 707 80 30) (at_ (-15) 10)
        (resizingState (sampleLayout 1000 707 80 30))).page.blocks 0).width =
          some (fin 80) ∧
      ∃ w : ℚ, ((doResize (sampleLayout 1000 707 80 30) (at_ (-15) 10)
        (resizingState (sampleLayout 1000 707 80 30))).page.blocks 0).width =
          some (fin w) ∧ 80 ≤ w := by
  have hdx : resizeDx (sampleLayout 1000 707 80 30) (at_ (-15) 10)
      (resizingState (sampleLayout 1000 707 80 30)).ed = fin (-50) := by
    have r1 : roundDouble (-15 - 10) = -25 := by
      have h := roundDouble_intCast (-25) (by norm_num [abs_lt])
      norm_num at h ⊢
      exact h
    have r2 : roundDouble (2000 / 1000) = 2 := by
      have h := roundDouble_intCast 2 (by norm_num [abs_lt])
      norm_num at h ⊢
      exact h
    have r3 : roundDouble (-25 * 2) = -50 := by
      have h := roundDouble_intCast (-50) (by norm_num [abs_lt])
      norm_num at h ⊢
      exact h
    have c1 : (((2000 : Long) : ℕ) : ℚ) = 2000 := by
      have : ((2000 : Long) : ℕ) = 2000 := rfl
      rw [this]; norm_num
    have hx : (resizingState (sampleLayout 1000 707 80 30)).ed.resizeStartX = 10 := rfl
    simp only [resizeDx, scaleX, hx]
    simp only [sampleLayout, at_]
    rw [c1, fin_sub_fin, fin_div_fin _ (by norm_num), fin_mul_fin, r1, r2, r3]
  obtain ⟨-, -, -, -, -, -, hrange, -, hfloor⟩ :=
    doResize_formula_and_floor (sampleLayout 1000 707 80 30) (at_ (-15) 10)
      (resizingState (sampleLayout 1000 707 80 30)) 0 rfl rfl
  exact ⟨rfl, rfl, hdx, hfloor rfl hdx, (hrange (by decide) half_size_in_range).2.2.2⟩

/-- Claim C6 fails as stated.  Block 0, 50px wide, is grabbed by its resize handle
(`elStartW = 50`).  (1) The container is then hidden (all sizes zero): the scale is
`0 / 0 = NaN`, `doResize` assigns `'NaNpx'`, the style discards it and the block is
still 50px wide, below 80.  (2) With the surface still 2000 wide but a rendered
width of zero, a pointer move of +20 assigns `'Infinitypx'`: same outcome. -/
theorem doResize_floor_counterexample :
    smallBlockResizing.ed.isResizing = true ∧
      smallBlockResizing.ed.elStartW = 50 ∧
      (JSNum.max (fin 80)
          (fin smallBlockResizing.ed.elStartW +
            resizeDx hiddenLayout (at_ 30 10) smallBlockResizing.ed) = nan ∧
        ((doResize hiddenLayout (at_ 30 10) smallBlockResizing).page.blocks 0).width =
          some (fin 50) ∧
        ¬ ∃ w, ((doResize hiddenLayout (at_ 30 10) smallBlockResizing).page.blocks 0).width =
            some w ∧ fin 80 ≤ w) ∧
      (JSNum.max (fin 80)
          (fin smallBlockResizing.ed.elStartW +
            resizeDx (sampleLayout 0 0 50 20) (at_ 30 10) smallBlockResizing.ed) = posInf ∧
        ((doResize (sampleLayout 0 0 50 20) (at_ 30 10) smallBlockResizing).page.blocks
          0).width = some (fin 50)) := by
  obtain ⟨-, -, hN⟩ := degenerate_width hiddenLayout (at_ 30 10) smallBlockResizing.ed 0 rfl
  obtain ⟨-, -, hI⟩ :=
    degenerate_width (sampleLayout 0 0 50 20) (at_ 30 10) smallBlockResizing.ed 0 rfl
  have hold : (smallBlockResizing.page.blocks 0).width = some (fin 50) := by
    simp [smallBlockResizing, startResize, construct, makeInteractive, smallBlocksPage,
      plainPage, plainBlock, Page.modify]
  have c0 : hiddenLayout.containerOffsetWidth = 0 := rfl
  have c3 : (sampleLayout 0 0 50 20).containerOffsetWidth ≠ 0 := by decide
  have c4 : (at_ 30 10).clientX ≠ smallBlockResizing.ed.resizeStartX := by
    show (30 : ℚ) ≠ 10
    norm_num
  have c5 : smallBlockResizing.ed.resizeStartX < (at_ 30 10).clientX := by
    show (10 : ℚ) < 30
    norm_num
  rw [if_pos (Or.inl c0)] at hN
  rw [if_neg (by simp [c3, c4]), if_pos c5] at hI
  have wN := doResize_writes hiddenLayout (at_ 30 10) smallBlockResizing 0 rfl rfl
  have wI := doResize_writes (sampleLayout 0 0 50 20) (at_ 30 10) smallBlockResizing 0 rfl rfl
  have rN : ((doResize hiddenLayout (at_ 30 10) smallBlockResizing).page.blocks 0).width =
      some (fin 50) := by
    rw [wN.1, hN, assignPx_nan, hold]
  have rI : ((doResize (sampleLayout 0 0 50 20) (at_ 30 10)
      smallBlockResizing).page.blocks 0).width = some (fin 50) := by
    rw [wI.1, hI, assignPx_posInf, hold]
  refine ⟨rfl, rfl, ⟨hN, rN, ?_⟩, hI, rI⟩
  rintro ⟨w, h1, h2⟩
  rw [rN] at h1
  cases h1
  rw [fin_le_fin] at h2
  norm_num at h2

/-- Claim C10 fails on the code: `startDrag` reads the position with `parseInt`.
Block 0, dragged once under a 1.25 scale, sits at `left = 102.5px`; the next
`startDrag` records `elStartLeft = 102`, and a `doDrag` at the same pointer
coordinates writes `left = 102px`. -/
theorem startDrag_truncates_fraction :
    (afterScaledDrag.page.blocks 0).left = some (fin (205 / 2)) ∧
      (startDrag zoomedLayout (at_ 50 50) 0 afterScaledDrag).ed.elStartLeft = 102 ∧
      ((doDrag zoomedLayout (at_ 50 50)
        (startDrag zoomedLayout (at_ 50 50) 0 afterScaledDrag)).page.blocks 0).left =
          some (fin 102) := by
  have c1 : (((2000 : Long) : ℕ) : ℚ) = 2000 := by
    have : ((2000 : Long) : ℕ) = 2000 := rfl
    rw [this]; norm_num
  have c2 : (((200 : Long) : ℕ) : ℚ) = 200 := by
    have : ((200 : Long) : ℕ) = 200 := rfl
    rw [this]; norm_num
  have rs : roundDouble (2000 / 1600) = 5 / 4 := by
    have h := roundDouble_mul_zpow 5 (-2) (by norm_num [abs_lt])
    norm_num at h ⊢
    exact h
  have r0 : roundDouble (50 - 50) = 0 := by
    rw [sub_self, roundDouble_zero]
  have r2 : roundDouble (12 - 10) = 2 := by
    have h := roundDouble_intCast 2 (by norm_num [abs_lt])
    norm_num at h ⊢
    exact h
  have rp : roundDouble (2 * (5 / 4)) = 5 / 2 := by
    have h := roundDouble_mul_zpow 5 (-1) (by norm_num [abs_lt])
    norm_num at h ⊢
    exact h
  have rq : roundDouble (((100 : ℤ) : ℚ) + 5 / 2) = 205 / 2 := by
    have h := roundDouble_mul_zpow 205 (-1) (by norm_num [abs_lt])
    norm_num at h ⊢
    exact h
  have rz : roundDouble (0 * (5 / 4)) = 0 := by
    rw [zero_mul, roundDouble_zero]
  have rt : roundDouble (((102 : ℤ) : ℚ) + 0) = 102 := by
    have h := roundDouble_intCast 102 (by norm_num [abs_lt])
    norm_num at h ⊢
    exact h
  have s1 : (startDrag zoomedLayout (at_ 10 10) 0 (construct plainPage)).ed.elStartLeft =
      100 := by decide
  have t1 : dragTargetLeft zoomedLayout (at_ 12 10)
      (startDrag zoomedLayout (at_ 10 10) 0 (construct plainPage)).ed = fin (205 / 2) := by
    have hx : (startDrag zoomedLayout (at_ 10 10) 0 (construct plainPage)).ed.dragStartX =
        10 := rfl
    simp only [dragTargetLeft, scaleX, s1, hx]
    simp only [zoomedLayout, sampleLayout, at_]
    rw [c1, fin_sub_fin, fin_div_fin _ (by norm_num), fin_mul_fin, fin_add_fin, r2, rs, rp, rq]
  have k1 : clampInside (fin (205 / 2)) zoomedLayout.containerOffsetWidth
      (zoomedLayout.offsetWidth 0) = fin (205 / 2) := by
    unfold clampInside
    rw [long_sub_exact]
    simp only [zoomedLayout, sampleLayout]
    rw [c1, c2]
    norm_num
  have h1 : (afterScaledDrag.page.blocks 0).left = some (fin (205 / 2)) := by
    have w := (doDrag_writes zoomedLayout (at_ 12 10)
      (startDrag zoomedLayout (at_ 10 10) 0 (construct plainPage)) 0 rfl rfl).1
    rw [t1, k1, assignPx_fin] at w
    have : (afterScaledDrag.page.blocks 0).left =
        ((doDrag zoomedLayout (at_ 12 10)
          (startDrag zoomedLayout (at_ 10 10) 0 (construct plainPage))).page.blocks 0).left := by
      simp [afterScaledDrag, run, step, endDrag, doDrag, startDrag, Page.modify]
    rw [this, w]
  have h2 : (startDrag zoomedLayout (at_ 50 50) 0 afterScaledDrag).ed.elStartLeft = 102 := by
    have : parseInt (some (fin (205 / 2))) = some 102 := by
      norm_num [parseInt]
      decide
    simp [startDrag, h1, this, orElse]
  have t2 : dragTargetLeft zoomedLayout (at_ 50 50)
      (startDrag zoomedLayout (at_ 50 50) 0 afterScaledDrag).ed = fin 102 := by
    have hx : (startDrag zoomedLayout (at_ 50 50) 0 afterScaledDrag).ed.dragStartX = 50 := rfl
    simp only [dragTargetLeft, scaleX, h2, hx]
    simp only [zoomedLayout, sampleLayout, at_]
    rw [c1, fin_sub_fin, fin_div_fin _ (by norm_num), fin_mul_fin, fin_add_fin, r0, rs, rz, rt]
  have k2 : clampInside (fin 102) zoomedLayout.containerOffsetWidth
      (zoomedLayout.offsetWidth 0) = fin 102 := by
    unfold clampInside
    rw [long_sub_exact]
    simp only [zoomedLayout, sampleLayout]
    rw [c1, c2]
    norm_num
  refine ⟨h1, h2, ?_⟩
  rw [(doDrag_writes zoomedLayout (at_ 50 50)
    (startDrag zoomedLayout (at_ 50 50) 0 afterScaledDrag) 0 rfl rfl).1, t2, k2, assignPx_fin]

/-- Claim C2 fails as stated: `startDrag` directly followed by `startResize` leaves
both flags set. -/
theorem both_flags_counterexample :
    (run (construct plainPage) dragThenResize).ed.isDragging = true ∧
      (run (construct plainPage) dragThenResize).ed.isResizing = true ∧
      (run (construct plainPage) dragThenResize).ed.mode = none :=
  ⟨rfl, rfl, rfl⟩

/-- Claim C3 fails on the code: after `selectEl(0)` and `startDrag(e, 1)` the selection
is block 1 while block 0 still carries the `selected` marker. -/
theorem startDrag_keeps_old_marker :
    afterSelectThenDrag.ed.selectedEl = some 1 ∧
      (afterSelectThenDrag.page.blocks 0).selected = true ∧
      (afterSelectThenDrag.page.blocks 1).selected = true ∧
      ¬ MarkerMatchesSelection afterSelectThenDrag := by
  have h0 : (afterSelectThenDrag.page.blocks 0).selected = true := by
    simp [afterSelectThenDrag, run, step, selectEl, startDrag, construct, makeInteractive,
      plainPage, plainBlock, Page.modify, Function.update]
  have h1 : (afterSelectThenDrag.page.blocks 1).selected = true := by
    simp [afterSelectThenDrag, run, step, selectEl, startDrag, construct, makeInteractive,
      plainPage, plainBlock, Page.modify, Function.update]
  refine ⟨rfl, h0, h1, ?_⟩
  intro h
  have := (h 0).1 h0
  exact absurd this (by decide)

/-- The two flags are not both set exactly when the flags encode a mode. -/
theorem mode_ne_none_iff (ed : Editor) :
    ed.mode ≠ none ↔ ¬ (ed.isDragging = true ∧ ed.isResizing = true) := by
  cases hd : ed.isDragging <;> cases hr : ed.isResizing <;> simp [Editor.mode, hd, hr]

/-- One call keeps the flags exclusive, provided a start call is issued from Idle. -/
theorem step_keeps_mode (s : State) (c : Call) (hm : s.ed.mode ≠ none)
    (hc : (!c.isStart || s.ed.isIdle) = true) : (step s c).ed.mode ≠ none := by
  rw [mode_ne_none_iff] at hm ⊢
  cases hd : s.ed.isDragging <;> cases hr : s.ed.isResizing <;>
    cases c <;>
    simp_all [step, startDrag, doDrag, endDrag, startResize, doResize, endResize, selectEl,
      deselect, Call.isStart, Editor.isIdle] <;>
    (try split) <;> simp_all

/-- A prefix of a sequence whose starts are issued from Idle has the same property. -/
theorem startsFromIdle_take (calls : List Call) :
    ∀ (s : State) (k : ℕ), startsFromIdle s calls = true →
      startsFromIdle s (calls.take k) = true := by
  induction calls with
  | nil => intro s k h; simp [startsFromIdle]
  | cons c rest ih =>
      intro s k h
      cases k with
      | zero => simp [startsFromIdle]
      | succ k =>
          simp only [startsFromIdle, Bool.and_eq_true, List.take_succ_cons] at h ⊢
          exact ⟨h.1, ih _ k h.2⟩

/-- Exclusive flags are kept along a sequence whose starts are issued from Idle. -/
theorem run_keeps_mode (calls : List Call) :
    ∀ s : State, s.ed.mode ≠ none → startsFromIdle s calls = true →
      (run s calls).ed.mode ≠ none := by
  induction calls with
  | nil => intro s hm _; simpa [run] using hm
  | cons c rest ih =>
      intro s hm h
      simp only [startsFromIdle, Bool.and_eq_true] at h
      have := ih (step s c) (step_keeps_mode s c hm h.1) h.2
      simpa [run] using this

/-- Claim C2, amended: from a freshly constructed editor, along every sequence of
calls in which each `startDrag`/`startResize` is issued while both flags are clear,
the flags are never both set: after every prefix the mode is one of Idle, Dragging,
Resizing. -/
theorem flags_exclusive_when_started_from_idle (p : Page) (calls : List Call)
    (h : startsFromIdle (construct p) calls = true) (k : ℕ) :
    (∃ m : Mode, (run (construct p) (calls.take k)).ed.mode = some m) ∧
      ¬ ((run (construct p) (calls.take k)).ed.isDragging = true ∧
        (run (construct p) (calls.take k)).ed.isResizing = true) := by
  have hm : (run (construct p) (calls.take k)).ed.mode ≠ none :=
    run_keeps_mode _ _ (by simp [construct, Editor.mode]) (startsFromIdle_take calls _ k h)
  exact ⟨Option.ne_none_iff_exists'.mp hm, (mode_ne_none_iff _).mp hm⟩

/-- Witness for C2 amended: a drag then a resize, each released before the next
begins; in the middle of the resize the mode is Resizing. -/
theorem flags_exclusive_when_started_from_idle_witness :
    startsFromIdle (construct plainPage) dragReleaseResize = true ∧
      (∃ m : Mode, (run (construct plainPage) (dragReleaseResize.take 6)).ed.mode = some m) ∧
      (run (construct plainPage) (dragReleaseResize.take 6)).ed.mode = some Mode.resizing :=
  ⟨rfl, (flags_exclusive_when_started_from_idle plainPage dragReleaseResize rfl 6).1, rfl⟩

/-- `Math.max(8, a + b)` of finite numbers is finite and at least 8, so it is stored. -/
theorem atLeast8_max (old : StyleLen) (a b : ℚ) :
    AtLeast8 (assignPx old (JSNum.max (fin 8) (fin a + fin b))) := by
  simp [AtLeast8]

/-- Every role descendant visited by the `forEach` ends at 8px or more, and none is
added or dropped. -/
theorem bumpRoles_floor (delta : ℤ) (computed : ℕ → ℚ) (l : List StyleLen) :
    ∀ i : ℕ, (∀ r ∈ bumpRoles delta computed i l, AtLeast8 r) ∧
      (bumpRoles delta computed i l).length = l.length := by
  induction l with
  | nil => intro i; simp [bumpRoles]
  | cons x rest ih =>
      intro i
      obtain ⟨h1, h2⟩ := ih (i + 1)
      refine ⟨?_, by simp [bumpRoles, h2]⟩
      intro r hr
      simp only [bumpRoles, List.mem_cons] at hr
      rcases hr with rfl | hr
      · exact atLeast8_max _ _ _
      · exact h1 r hr

/-- One `changeFontSize` call on a selected block: selection kept, sizes at least 8. -/
theorem changeFontSize_floor (lay : Layout) (delta : ℤ) (s : State) (el : BlockId)
    (hs : s.ed.selectedEl = some el) :
    (changeFontSize lay delta s).ed.selectedEl = some el ∧
      AtLeast8 ((changeFontSize lay delta s).page.blocks el).fontSize ∧
      (∀ r ∈ ((changeFontSize lay delta s).page.blocks el).roleFontSize, AtLeast8 r) ∧
      ((changeFontSize lay delta s).page.blocks el).roleFontSize.length =
        (s.page.blocks el).roleFontSize.length := by
  obtain ⟨h1, h2⟩ := bumpRoles_floor delta (lay.roleFontSize el) (s.page.blocks el).roleFontSize 0
  simp only [changeFontSize, hs, modify_blocks_same]
  exact ⟨trivial, atLeast8_max _ _ _, h1, h2⟩

/-- The selection and the number of role descendants survive any sequence of
`changeFontSize` calls. -/
theorem changeFontSizes_keeps (calls : List (Layout × ℤ)) :
    ∀ (s : State) (el : BlockId), s.ed.selectedEl = some el →
      (changeFontSizes s calls).ed.selectedEl = some el ∧
        ((changeFontSizes s calls).page.blocks el).roleFontSize.length =
          (s.page.blocks el).roleFontSize.length := by
  induction calls with
  | nil => intro s el hs; exact ⟨hs, rfl⟩
  | cons c rest ih =>
      intro s el hs
      obtain ⟨h1, -, -, h4⟩ := changeFontSize_floor c.1 c.2 s el hs
      obtain ⟨k1, k2⟩ := ih (changeFontSize c.1 c.2 s) el h1
      exact ⟨by simpa [changeFontSizes] using k1, by simpa [changeFontSizes, h4] using k2⟩

/-- After a non-empty sequence of `changeFontSize` calls every written size is at
least 8. -/
theorem changeFontSizes_floor (calls : List (Layout × ℤ)) :
    ∀ (s : State) (el : BlockId), s.ed.selectedEl = some el → calls ≠ [] →
      AtLeast8 ((changeFontSizes s calls).page.blocks el).fontSize ∧
        ∀ r ∈ ((changeFontSizes s calls).page.blocks el).roleFontSize, AtLeast8 r := by
  induction calls with
  | nil => intro s el _ h; exact absurd rfl h
  | cons c rest ih =>
      intro s el hs _
      obtain ⟨h1, h2, h3, -⟩ := changeFontSize_floor c.1 c.2 s el hs
      by_cases hr : rest = []
      · subst hr
        exact ⟨h2, h3⟩
      · exact ih (changeFontSize c.1 c.2 s) el h1 hr

/-- Claim C9: for a selected block, whatever font sizes the browser computes for the
block and for its role descendants, after each call of any sequence of
`changeFontSize(delta)` calls with integer deltas, the font size written on the block
and on every role descendant is at least 8px (and the role descendants are the same
in number as at the start). -/
theorem font_size_floor (s : State) (el : BlockId) (hs : s.ed.selectedEl = some el)
    (calls : List (Layout × ℤ)) (k : ℕ) (hk : 0 < k) (hkl : k ≤ calls.length) :
    AtLeast8 ((changeFontSizes s (calls.take k)).page.blocks el).fontSize ∧
      (∀ r ∈ ((changeFontSizes s (calls.take k)).page.blocks el).roleFontSize, AtLeast8 r) ∧
      ((changeFontSizes s (calls.take k)).page.blocks el).roleFontSize.length =
        (s.page.blocks el).roleFontSize.length := by
  have hne : calls.take k ≠ [] := by
    intro h
    have := congrArg List.length h
    simp only [List.length_take, List.length_nil] at this
    omega
  obtain ⟨h1, h2⟩ := changeFontSizes_floor (calls.take k) s el hs hne
  exact ⟨h1, h2, (changeFontSizes_keeps (calls.take k) s el hs).2⟩

/-- Witness for C9: block 0 selected, shrunk by 2 and then by 20: both the block and
its role descendants end at the floor. -/
theorem font_size_floor_witness :
    block0Selected.ed.selectedEl = some 0 ∧
      AtLeast8 ((changeFontSizes block0Selected (twoShrinks.take 2)).page.blocks 0).fontSize ∧
      ((changeFontSizes block0Selected (twoShrinks.take 2)).page.blocks 0).roleFontSize.length
        = 2 :=
  ⟨rfl, (font_size_floor block0Selected 0 rfl twoShrinks 2 (by decide) (by decide)).1,
    (font_size_floor block0Selected 0 rfl twoShrinks 2 (by decide) (by decide)).2.2⟩

/-- The selection step of the export touches neither attributes, handles nor the
container's decoration. -/
theorem deselect_frame (s : State) (i : BlockId) :
    ((deselect s).page.blocks i).contenteditable = (s.page.blocks i).contenteditable ∧
      ((deselect s).page.blocks i).spellcheck = (s.page.blocks i).spellcheck ∧
      ((deselect s).page.blocks i).dragHandleDisplay = (s.page.blocks i).dragHandleDisplay ∧
      ((deselect s).page.blocks i).resizeHandleDisplay =
        (s.page.blocks i).resizeHandleDisplay ∧
      (deselect s).page.boxShadow = s.page.boxShadow ∧
      (deselect s).page.borderRadius = s.page.borderRadius := by
  unfold deselect
  cases h : s.ed.selectedEl with
  | none => simp
  | some old =>
      by_cases hi : i = old
      · subst hi
        simp [Page.modify]
      · simp [Page.modify, Function.update_noteq hi]

/-- Claim C4, amended: when the renderer rejects, after the catch handler the
container's shadow and radius are the pre-export ones; every block that bore a
`contenteditable` attribute has `contenteditable="true"` and `spellcheck="false"`;
a block without it keeps no `contenteditable` and its `spellcheck`; every handle has
the empty `display`; no download is produced.  Hence the pre-export values are all
restored when the editable blocks already had `"true"`/`"false"` and the handles the
empty `display`. -/
theorem export_failure_restores (s : State) (msg : String) :
    (downloadImage (RenderResult.rejected msg) s).1.page.boxShadow = s.page.boxShadow ∧
      (downloadImage (RenderResult.rejected msg) s).1.page.borderRadius =
        s.page.borderRadius ∧
      (∀ i, (s.page.blocks i).contenteditable ≠ none →
        ((downloadImage (RenderResult.rejected msg) s).1.page.blocks i).contenteditable =
            some "true" ∧
          ((downloadImage (RenderResult.rejected msg) s).1.page.blocks i).spellcheck =
            some "false") ∧
      (∀ i, (s.page.blocks i).contenteditable = none →
        ((downloadImage (RenderResult.rejected msg) s).1.page.blocks i).contenteditable =
            none ∧
          ((downloadImage (RenderResult.rejected msg) s).1.page.blocks i).spellcheck =
            (s.page.blocks i).spellcheck) ∧
      (∀ i,
        ((downloadImage (RenderResult.rejected msg) s).1.page.blocks i).dragHandleDisplay =
            "" ∧
          ((downloadImage (RenderResult.rejected msg) s).1.page.blocks i).resizeHandleDisplay =
            "") ∧
      (∀ eff ∈ (downloadImage (RenderResult.rejected msg) s).2, eff.isDownload = false) ∧
      ((∀ i, (s.page.blocks i).contenteditable ≠ none →
          (s.page.blocks i).contenteditable = some "true" ∧
            (s.page.blocks i).spellcheck = some "false") →
        (∀ i, (s.page.blocks i).dragHandleDisplay = "" ∧
          (s.page.blocks i).resizeHandleDisplay = "") →
        ExportRestored s (downloadImage (RenderResult.rejected msg) s).1) := by
  have hsh : (downloadImage (RenderResult.rejected msg) s).1.page.boxShadow =
      s.page.boxShadow := by
    simp [downloadImage, onRejected, stripChrome, (deselect_frame s 0).2.2.2.2.1]
  have hra : (downloadImage (RenderResult.rejected msg) s).1.page.borderRadius =
      s.page.borderRadius := by
    simp [downloadImage, onRejected, stripChrome, (deselect_frame s 0).2.2.2.2.2]
  have hed : ∀ i, (s.page.blocks i).contenteditable ≠ none →
      ((downloadImage (RenderResult.rejected msg) s).1.page.blocks i).contenteditable =
          some "true" ∧
        ((downloadImage (RenderResult.rejected msg) s).1.page.blocks i).spellcheck =
          some "false" := by
    intro i hi
    have hsome : (s.page.blocks i).contenteditable.isSome = true :=
      Option.isSome_iff_ne_none.mpr hi
    simp [downloadImage, onRejected, stripChrome, (deselect_frame s i).1, hsome]
  have hne : ∀ i, (s.page.blocks i).contenteditable = none →
      ((downloadImage (RenderResult.rejected msg) s).1.page.blocks i).contenteditable =
          none ∧
        ((downloadImage (RenderResult.rejected msg) s).1.page.blocks i).spellcheck =
          (s.page.blocks i).spellcheck := by
    intro i hi
    simp [downloadImage, onRejected, stripChrome, (deselect_frame s i).1,
      (deselect_frame s i).2.1, hi]
  have hha : ∀ i,
      ((downloadImage (RenderResult.rejected msg) s).1.page.blocks i).dragHandleDisplay =
          "" ∧
        ((downloadImage (RenderResult.rejected msg) s).1.page.blocks i).resizeHandleDisplay =
          "" := by
    intro i
    simp only [downloadImage, onRejected]
    split <;> simp
  refine ⟨hsh, hra, hed, hne, hha, ?_, ?_⟩
  · intro eff heff
    simp [downloadImage] at heff
    rcases heff with rfl | rfl <;> rfl
  · intro hcanon hhandles
    refine ⟨fun i => ?_, hsh, hra, fun i => ?_⟩
    · by_cases hi : (s.page.blocks i).contenteditable = none
      · rw [(hne i hi).1, (hne i hi).2, hi]
        exact ⟨rfl, rfl⟩
      · rw [(hed i hi).1, (hed i hi).2, (hcanon i hi).1, (hcanon i hi).2]
        exact ⟨rfl, rfl⟩
    · rw [(hha i).1, (hha i).2, (hhandles i).1, (hhandles i).2]
      exact ⟨rfl, rfl⟩

/-- Witness for C4 amended: on the plain page (blocks `contenteditable="true"`,
`spellcheck="false"`, fresh handles) a rejected render leaves everything restored and
produces no download. -/
theorem export_failure_restores_witness :
    ExportRestored (construct plainPage)
        (downloadImage (RenderResult.rejected "tainted canvas") (construct plainPage)).1 ∧
      ((downloadImage (RenderResult.rejected "tainted canvas") (construct plainPage)).2.map
        Effect.isDownload) = [false, false] :=
  ⟨(export_failure_restores (construct plainPage) "tainted canvas").2.2.2.2.2.2
      (fun _ _ => ⟨rfl, rfl⟩) (fun _ => ⟨rfl, rfl⟩),
    rfl⟩

/-- Claim C4 fails as stated.  (1) A block that was `contenteditable="true"` without
a `spellcheck` attribute comes out of a failed export with `spellcheck="false"`.
(2) A block that was `contenteditable="false"` comes out `contenteditable="true"`.
(3) A drag handle that had the inline `display: block` comes out with none. -/
theorem export_restoration_counterexample :
    (((construct noSpellcheckPage).page.blocks 0).spellcheck = none ∧
      ((downloadImage (RenderResult.rejected "tainted canvas")
        (construct noSpellcheckPage)).1.page.blocks 0).spellcheck = some "false" ∧
      ¬ ExportRestored (construct noSpellcheckPage)
        (downloadImage (RenderResult.rejected "tainted canvas")
          (construct noSpellcheckPage)).1) ∧
    (((construct lockedPage).page.blocks 0).contenteditable = some "false" ∧
      ((downloadImage (RenderResult.rejected "tainted canvas")
        (construct lockedPage)).1.page.blocks 0).contenteditable = some "true") ∧
    ((shownHandlesState.page.blocks 0).dragHandleDisplay = "block" ∧
      ((downloadImage (RenderResult.rejected "tainted canvas")
        shownHandlesState).1.page.blocks 0).dragHandleDisplay = "") := by
  have h : ((downloadImage (RenderResult.rejected "tainted canvas")
      (construct noSpellcheckPage)).1.page.blocks 0).spellcheck = some "false" := by
    simp [downloadImage, onRejected, stripChrome, deselect, construct, makeInteractive,
      noSpellcheckPage, plainPage, plainBlock]
  refine ⟨⟨rfl, h, ?_⟩, ⟨rfl, ?_⟩, ⟨rfl, ?_⟩⟩
  · intro hr
    have h2 := (hr.1 0).2
    rw [h] at h2
    exact absurd h2 (by simp [construct, makeInteractive, noSpellcheckPage])
  · simp [downloadImage, onRejected, stripChrome, deselect, construct, makeInteractive,
      lockedPage, plainPage, plainBlock]
  · simp [downloadImage, onRejected, stripChrome, deselect, shownHandlesState, construct,
      makeInteractive, plainPage, plainBlock]

/-- Between `selectEl` calls the marker follows the selection.  If the markers match
the selection, then after `selectEl(a)` and `selectEl(b)` with `a ≠ b`, block `a` is not
marked, block `b` is, and the markers still match the selection. -/
theorem selectEl_moves_marker (s : State) (a b : BlockId) (hab : a ≠ b)
    (hinv : MarkerMatchesSelection s) :
    ((selectEl b (selectEl a s)).page.blocks a).selected = false ∧
      ((selectEl b (selectEl a s)).page.blocks b).selected = true ∧
      MarkerMatchesSelection (selectEl b (selectEl a s)) := by
  have step1 : ∀ (t : State) (x : BlockId), MarkerMatchesSelection t →
      MarkerMatchesSelection (selectEl x t) := by
    intro t x ht c
    unfold selectEl
    cases hsel : t.ed.selectedEl with
    | none =>
        by_cases hc : c = x
        · subst hc; simp [Page.modify]
        · have hf : (t.page.blocks c).selected = false := by
            by_contra hne
            have := (ht c).1 (by simpa using hne)
            rw [hsel] at this
            exact Option.noConfusion this
          simp [Page.modify, Function.update_noteq hc, hf, hc, Ne.symm hc]
    | some old =>
        by_cases hc : c = x
        · subst hc; simp [Page.modify]
        · by_cases hox : old = x
          · subst hox
            have hf : (t.page.blocks c).selected = false := by
              by_contra hne
              have := (ht c).1 (by simpa using hne)
              rw [hsel] at this
              exact hc (Option.some.inj this).symm
            simp [Page.modify, Function.update_noteq hc, hf, hc, Ne.symm hc]
          · by_cases hco : c = old
            · subst hco
              simp [Page.modify, Function.update_noteq hc, hox, hc, Ne.symm hc]
            · have hf : (t.page.blocks c).selected = false := by
                by_contra hne
                have := (ht c).1 (by simpa using hne)
                rw [hsel] at this
                exact hco (Option.some.inj this).symm
              simp [Page.modify, Function.update_noteq hc, Function.update_noteq hco, hox,
                hf, hc, Ne.symm hc]
  have h2 := step1 _ b (step1 s a hinv)
  have hb : ((selectEl b (selectEl a s)).page.blocks b).selected = true :=
    (h2 b).2 (by simp [selectEl])
  have ha : ((selectEl b (selectEl a s)).page.blocks a).selected = false := by
    by_contra hne
    have := (h2 a).1 (by simpa using hne)
    simp [selectEl] at this
    exact hab this.symm
  exact ⟨ha, hb, h2⟩

end MenuCard
